import Mathlib

/-!
Verification of the SerpentAI command-line orchestration layer
(`serpent/serpent.py`) against its natural-language specification.

The source is shallowly embedded: each CLI command handler becomes a pure
Lean function from its inputs (plugin registries, raw arguments) to a pair
of (a) the list of externally observable calls it makes, in order, and
(b) an `Except` value distinguishing normal completion from a raised Python
exception.  Plugin discovery (`offshoot.discover`) is an opaque lookup
service per the spec, modelled as a list of registered class names.  The
filesystem touched by the plugin scaffolding generator is modelled as an
association list from paths (segment lists) to file contents.
-/

namespace Serpent

/-- Segments of a filesystem path; `plugins/SerpentFooGamePlugin/plugin.py`
is `["plugins", "SerpentFooGamePlugin", "plugin.py"]`. -/
abbrev Path := List String

/-- Python values that flow through the CLI handlers: handler parameters
are either raw command-line strings, or the literal defaults baked into
the `def` line (ints like `frame_count=4`, bools like `validate=True`,
or `None`). -/
inductive PyVal where
  | vint (n : Int)
  | vbool (b : Bool)
  | vstr (s : String)
  | vnone
deriving DecidableEq

/-- Exceptions raised by the embedded code.  Each constructor corresponds to
one `raise` site in `serpent.py` or to a Python built-in error raised by a
library call; the constructor carries the data interpolated into the
original message.  `valueErrorInt s` is the `ValueError` raised by `int(s)`
on a non-numeric string, and `valueErrorFloat s` the one raised by
`float(s)`; these are distinct from the descriptive `Exception`s raised
explicitly by the handlers. -/
inductive PyError where
  | invalidCommand (token : String)
  | gameNotFound (game_name : String)
  | gameAgentNotFound (agent_name : String)
  | invalidCaptureCommand
  | invalidPluginType (plugin_type : String)
  | valueErrorInt (s : String)
  | valueErrorFloat (s : String)
  | typeErrorConversion
  | valueErrorValidate
  | valueErrorAutosave
  | fileExists (p : Path)
  | fileNotFound (p : Path)
  | arityError (fn : String)
deriving DecidableEq

/-- Keyword arguments of the single canonical `game.play(...)` call.  A
field is `none` when the corresponding keyword is not passed at that call
site (or is passed Python `None`).  `interval` holds the value handed to
`float(...)`; the call is only reached when that conversion succeeded. -/
structure PlayKwargs where
  game_agent_class_name : Option String
  frame_handler : Option String
  frame_count : Option Int
  frame_spacing : Option Int
  interval : Option PyVal
  context : Option String
  screen_region : Option String
  region : Option String
deriving DecidableEq

/-- Externally observable calls made by the handlers, in program order.
`gameTerminate` stands for any call releasing the game process/window
binding (a terminate/stop method on the game instance); it exists in the
vocabulary so that its absence from every handler trace can be stated.
`signalInstall owner` is `signal.signal(signal.SIGINT, owner.on_interrupt)`
and `trainCall owner` is the hand-off into the training collaborator. -/
inductive Event where
  | discoverGame
  | discoverGameAgent (selection : String)
  | constructGame (class_name : String)
  | gameLaunch (class_name : String) (dry_run : Bool)
  | gamePlay (class_name : String) (kwargs : PlayKwargs)
  | gameTerminate (class_name : String)
  | constructRecognizer (name : String) (algorithm : String) (classes : List String)
  | signalInstall (owner : String)
  | trainCall (owner : String)
  | handlerCall (command : String)
  | help
deriving DecidableEq

deriving instance DecidableEq for Except

/-- Outcome of running a handler: the ordered trace of external calls it
made, and either normal completion or the exception that propagated. -/
abbrev Outcome (α : Type) := List Event × Except PyError α

/-! ### Python numeric conversions -/

/-- Decimal digit run to a natural number; `none` on a non-digit. -/
def digitsToNatAux : List Char → Nat → Option Nat
  | [], acc => some acc
  | c :: cs, acc =>
      if c.isDigit then digitsToNatAux cs (acc * 10 + (c.toNat - 48)) else none

/-- Parse a nonempty all-digit string. -/
def digitsToNat : List Char → Option Nat
  | [] => none
  | cs => digitsToNatAux cs 0

/-- Python `int(s)` on a string: optional sign followed by decimal digits
(surrounding whitespace, underscores and other bases are not modelled; no
claim depends on them). -/
def pyParseInt (s : String) : Option Int :=
  match s.data with
  | '-' :: cs => (digitsToNat cs).map (fun n => -(n : Int))
  | '+' :: cs => (digitsToNat cs).map (fun n => (n : Int))
  | cs => (digitsToNat cs).map (fun n => (n : Int))

/-- Python `int(x)`: identity on ints, bool widening, string parsing with
`ValueError` on failure, `TypeError` on `None`. -/
def pyInt (v : PyVal) : Except PyError Int :=
  match v with
  | .vint n => .ok n
  | .vbool b => .ok (if b then 1 else 0)
  | .vstr s =>
      match pyParseInt s with
      | some n => .ok n
      | none => .error (.valueErrorInt s)
  | .vnone => .error .typeErrorConversion

/-- True on an all-digit list. -/
def allDigits : List Char → Bool
  | [] => true
  | c :: cs => c.isDigit && allDigits cs

/-- Digit run with at most one decimal point and at least one digit. -/
def floatBody (cs : List Char) : Bool :=
  match cs.span (fun c => c.isDigit) with
  | (intPart, []) => !intPart.isEmpty
  | (intPart, '.' :: fracPart) =>
      (!intPart.isEmpty || !fracPart.isEmpty) && allDigits fracPart
  | _ => false

/-- Python float-literal check: optional sign then digits with at most one
decimal point (exponent/infinity forms are not modelled; no claim uses
them). -/
def isPyFloatStr (s : String) : Bool :=
  match s.data with
  | '-' :: cs => floatBody cs
  | '+' :: cs => floatBody cs
  | cs => floatBody cs

/-- Python `float(x)`: the numeric value is never inspected by this layer,
so a successful conversion is represented by the converted source value
itself; only success versus `ValueError`/`TypeError` is modelled. -/
def pyFloat (v : PyVal) : Except PyError PyVal :=
  match v with
  | .vint n => .ok (.vint n)
  | .vbool b => .ok (.vbool b)
  | .vstr s => if isPyFloatStr s then .ok (.vstr s) else .error (.valueErrorFloat s)
  | .vnone => .error .typeErrorConversion

/-! ### Game resolution and the mode-driven command handlers -/

/-- `initialize_game` (serpent.py:679): derive the class name
`Serpent<game_name>Game`, query `offshoot.discover("Game")` (the opaque
registry, modelled as the list `games` of registered class names), and
either construct the class or raise the not-found `Exception` carrying the
attempted game name. -/
def initialize_game (games : List String) (game_name : String) : Outcome String :=
  let game_class_name := "Serpent" ++ game_name ++ "Game"
  if games.contains game_class_name then
    ([Event.discoverGame, Event.constructGame game_class_name], .ok game_class_name)
  else
    ([Event.discoverGame], .error (.gameNotFound game_name))

/-- `launch` command (serpent.py:412): resolve the game and make a live
(non-dry-run) `game.launch()` call. -/
def launch (games : List String) (game_name : String) : Outcome Unit :=
  match initialize_game games game_name with
  | (es, .error e) => (es, .error e)
  | (es, .ok cls) => (es ++ [Event.gameLaunch cls false], .ok ())

/-- `play` command (serpent.py:417): resolve the game, dry-run launch it,
look up the game agent plugin, and make the canonical `game.play` call;
the agent-lookup failure raises after the launch already happened. -/
def play (games agents : List String) (game_name game_agent_name : String)
    (frame_handler : Option String) : Outcome Unit :=
  match initialize_game games game_name with
  | (es, .error e) => (es, .error e)
  | (es, .ok cls) =>
      let es := es ++ [Event.gameLaunch cls true]
      let es := es ++ [Event.discoverGameAgent game_agent_name]
      if agents.contains game_agent_name then
        (es ++ [Event.gamePlay cls
          ⟨some game_agent_name, frame_handler, none, none, none, none, none, none⟩], .ok ())
      else
        (es, .error (.gameAgentNotFound game_agent_name))

/-- `record` command (serpent.py:430): resolve the game, dry-run launch it,
then call `game.play` with the RECORD frame handler; `int(frame_count)` and
`int(frame_spacing)` are evaluated (left to right) while building that
call, so a conversion `ValueError` propagates after the launch. -/
def record (games : List String) (game_name game_agent_name : String)
    (frame_count frame_spacing : PyVal) : Outcome Unit :=
  match initialize_game games game_name with
  | (es, .error e) => (es, .error e)
  | (es, .ok cls) =>
      let es := es ++ [Event.gameLaunch cls true]
      match pyInt frame_count with
      | .error e => (es, .error e)
      | .ok fc =>
          match pyInt frame_spacing with
          | .error e => (es, .error e)
          | .ok fsp =>
              (es ++ [Event.gamePlay cls
                ⟨some game_agent_name, some "RECORD", some fc, some fsp, none, none, none, none⟩],
               .ok ())

/-- `capture` command (serpent.py:458): resolve the game, dry-run launch
it, and only then validate `capture_type`; each valid variant converts the
interval with `float(...)` and makes one `game.play` call. -/
def capture (games : List String) (capture_type game_name : String)
    (interval : PyVal) (extra extra_2 : Option String) : Outcome Unit :=
  match initialize_game games game_name with
  | (es, .error e) => (es, .error e)
  | (es, .ok cls) =>
      let es := es ++ [Event.gameLaunch cls true]
      if (["frame", "context", "region"].contains capture_type) = false then
        (es, .error .invalidCaptureCommand)
      else if capture_type = "frame" then
        match pyFloat interval with
        | .error e => (es, .error e)
        | .ok iv =>
            (es ++ [Event.gamePlay cls
              ⟨none, some "COLLECT_FRAMES", none, none, some iv, none, none, none⟩], .ok ())
      else if capture_type = "context" then
        match pyFloat interval with
        | .error e => (es, .error e)
        | .ok iv =>
            (es ++ [Event.gamePlay cls
              ⟨none, some "COLLECT_FRAMES_FOR_CONTEXT", none, none, some iv, extra, extra_2, none⟩],
             .ok ())
      else if capture_type = "region" then
        match pyFloat interval with
        | .error e => (es, .error e)
        | .ok iv =>
            (es ++ [Event.gamePlay cls
              ⟨none, some "COLLECT_FRAME_REGIONS", none, none, some iv, none, none, extra⟩], .ok ())
      else
        (es, .ok ())

/-! ### Training hand-off -/

/-- Python truthiness vocabulary accepted by `train_context` for its
`validate` and `autosave` flags. -/
def trueFalseVocab : List PyVal :=
  [PyVal.vbool true, PyVal.vstr "True", PyVal.vbool false, PyVal.vstr "False"]

/-- `argv_is_true` (serpent.py:693). -/
def argv_is_true (arg : PyVal) : Bool :=
  [PyVal.vbool true, PyVal.vstr "True"].contains arg

/-- `train_context` (serpent.py:646): validate the two boolean flags, then
hand off to `ContextClassifier.executable_train` (after converting
`epochs` with `int(...)`).  No signal handler is installed on this path. -/
def train_context (epochs validate autosave : PyVal) : Outcome Unit :=
  if (trueFalseVocab.contains validate) = false then
    ([], .error .valueErrorValidate)
  else if (trueFalseVocab.contains autosave) = false then
    ([], .error .valueErrorAutosave)
  else
    match pyInt epochs with
    | .error e => ([], .error e)
    | .ok _ => ([Event.trainCall "ContextClassifier"], .ok ())

/-- `train_object` (serpent.py:657): construct the `ObjectRecognizer`,
install a SIGINT handler forwarding to its `on_interrupt`, then call its
`train()` entry point. -/
def train_object (name algorithm : String) (classes : List String) : Outcome Unit :=
  ([Event.constructRecognizer name algorithm classes,
    Event.signalInstall name, Event.trainCall name], .ok ())

/-- `train` dispatcher (serpent.py:451): an unrecognised training type
falls through silently (the if/elif chain has no else). -/
def trainDispatch (training_type : String) (args : List String) : Outcome Unit :=
  if training_type = "context" then
    match args with
    | [] => train_context (.vint 3) (.vbool true) (.vbool false)
    | [e] => train_context (.vstr e) (.vbool true) (.vbool false)
    | [e, v] => train_context (.vstr e) (.vstr v) (.vbool false)
    | [e, v, a] => train_context (.vstr e) (.vstr v) (.vstr a)
    | _ => ([], .error (.arityError "train_context"))
  else if training_type = "object" then
    match args with
    | name :: algorithm :: classes => train_object name algorithm classes
    | _ => ([], .error (.arityError "train_object"))
  else
    ([], .ok ())

/-- `generate` command (serpent.py:442): type check before any interactive
work; the two interactive generators read stdin and are opaque at this
level (their filesystem core is `prepare_game_plugin` below). -/
def generate (plugin_type : String) : Outcome Unit :=
  if plugin_type = "game" then
    ([Event.handlerCall "generate_game_plugin"], .ok ())
  else if plugin_type = "game_agent" then
    ([Event.handlerCall "generate_game_agent_plugin"], .ok ())
  else
    ([], .error (.invalidPluginType plugin_type))

/-! ### Top-level command dispatch -/

/-- Registries visible to one process invocation: the installed Game and
GameAgent plugin class names. -/
structure World where
  games : List String
  agents : List String

/-- `valid_commands` (serpent.py:24). -/
def valid_commands : List String :=
  ["setup", "update", "modules", "grab_frames", "launch", "play", "record",
   "generate", "activate", "deactivate", "plugins", "train", "capture",
   "visual_debugger", "window_name", "record_inputs", "dashboard",
   "object_recognition"]

/-- Binding of `sys.argv[2:]` to a handler invocation
(`command_function_mapping[command](*sys.argv[2:])`, serpent.py:58).
Python's positional binding supplies the literal defaults from each
handler's `def` line for omitted trailing arguments and raises `TypeError`
on an arity mismatch (before the handler body runs).  Handlers whose
bodies are outside this layer's scope (setup, dashboard, ...) are recorded
as an opaque `handlerCall`. -/
def runCommand (w : World) (command : String) (args : List String) : Outcome Unit :=
  if command = "launch" then
    match args with
    | [g] => launch w.games g
    | _ => ([], .error (.arityError "launch"))
  else if command = "play" then
    match args with
    | [g, a] => play w.games w.agents g a none
    | [g, a, fh] => play w.games w.agents g a (some fh)
    | _ => ([], .error (.arityError "play"))
  else if command = "record" then
    match args with
    | [g, a] => record w.games g a (.vint 4) (.vint 4)
    | [g, a, fc] => record w.games g a (.vstr fc) (.vint 4)
    | [g, a, fc, fsp] => record w.games g a (.vstr fc) (.vstr fsp)
    | _ => ([], .error (.arityError "record"))
  else if command = "capture" then
    match args with
    | [t, g] => capture w.games t g (.vint 1) none none
    | [t, g, i] => capture w.games t g (.vstr i) none none
    | [t, g, i, e1] => capture w.games t g (.vstr i) (some e1) none
    | [t, g, i, e1, e2] => capture w.games t g (.vstr i) (some e1) (some e2)
    | _ => ([], .error (.arityError "capture"))
  else if command = "train" then
    match args with
    | [] => ([], .error (.arityError "train"))
    | t :: rest => trainDispatch t rest
  else if command = "generate" then
    match args with
    | [t] => generate t
    | _ => ([], .error (.arityError "generate"))
  else
    ([Event.handlerCall command], .ok ())

/-- `execute` (serpent.py:46): with no arguments show the help text; with
`-h`/`--help` show the help text; otherwise reject tokens outside
`valid_commands` with the descriptive `Exception`, and dispatch the rest.
`argv` is the full `sys.argv`, program name included. -/
def execute (w : World) (argv : List String) : Outcome Unit :=
  match argv with
  | [] => ([], .ok ())
  | [_] => ([Event.help], .ok ())
  | _ :: command :: rest =>
      if command = "-h" ∨ command = "--help" then
        ([Event.help], .ok ())
      else if valid_commands.contains command then
        runCommand w command rest
      else
        ([], .error (.invalidCommand command))

/-! ### Filesystem model and the scaffolding generator -/

/-- Flat filesystem: file path to contents.  Directories exist implicitly
when a file lives under them. -/
abbrev FS := List (Path × String)

/-- First entry at exactly `p`, if any (a read of file `p`). -/
def fsFind : FS → Path → Option String
  | [], _ => none
  | (q, c) :: fs, p => if p = q then some c else fsFind fs p

/-- Remove every entry at exactly `p`. -/
def fsErase : FS → Path → FS
  | [], _ => []
  | (q, c) :: fs, p => if p = q then fsErase fs p else (q, c) :: fsErase fs p

/-- Write (create or overwrite) file `p`. -/
def fsWrite (fs : FS) (p : Path) (c : String) : FS :=
  (p, c) :: fsErase fs p

/-- `shutil.move` of a single file: read it, delete it, write it at the new
path; `FileNotFoundError` when the source is missing. -/
def fsMove (fs : FS) (src dst : Path) : Except PyError FS :=
  match fsFind fs src with
  | none => .error (.fileNotFound src)
  | some c => .ok (fsWrite (fsErase fs src) dst c)

/-- A path exists as a directory or file: some file lives at it or below
it. -/
def dirExistsB (fs : FS) (d : Path) : Bool :=
  fs.any (fun kv => d.isPrefixOf kv.1)

/-- `shutil.copytree template dest`: Python's copytree first runs
`os.makedirs(dest)`, which raises `FileExistsError` when the destination
already exists, before any file is copied; otherwise every template file is
copied below `dest`. -/
def copytree (fs : FS) (template : List (Path × String)) (dst : Path) :
    Except PyError FS :=
  if dirExistsB fs dst then .error (.fileExists dst)
  else .ok ((template.map (fun kv => (dst ++ kv.1, kv.2))) ++ fs)

/-! Python `str.replace`, needed because `prepare_game_plugin` performs all
its rewriting through whole-content `contents.replace(old, new)` calls. -/

/-- Left-to-right, non-overlapping replacement of `pat` by `rep`; the fuel
is the subject length, which bounds the number of steps. -/
def replaceAux (pat rep : List Char) : Nat → List Char → List Char
  | _, [] => []
  | 0, s => s
  | Nat.succ n, c :: cs =>
      if pat.isPrefixOf (c :: cs) then
        rep ++ replaceAux pat rep n (List.drop (pat.length - 1) cs)
      else
        c :: replaceAux pat rep n cs

/-- Python `s.replace(pat, rep)` for a nonempty pattern (every pattern in
the source is a nonempty literal). -/
def pyReplace (s pat rep : String) : String :=
  if pat.data.isEmpty then s
  else ⟨replaceAux pat.data rep.data s.data.length s.data⟩

/-- Split a string into its lines (separator `\n`, kept out of the
results). -/
def splitLinesAux : List Char → List Char → List String
  | [], acc => [⟨acc.reverse⟩]
  | c :: cs, acc =>
      if c = '\n' then (⟨acc.reverse⟩ : String) :: splitLinesAux cs []
      else splitLinesAux cs (c :: acc)

/-- Lines of a file. -/
def linesOf (s : String) : List String := splitLinesAux s.data []

/-- Modelled from the spec: the template file
`templates/SerpentGamePlugin/plugin.py` ships with the package, outside
this repository's sources; per the spec it is a plugin descriptor file
whose placeholder tokens (`SerpentGamePlugin`, `serpent_game.py`) are the
literal uninstantiated names. -/
def templatePluginPy : String :=
  "from offshoot import Plugin\n\nclass SerpentGamePlugin(Plugin):\n" ++
  "name = \"SerpentGamePlugin\"\nfile = \"files/serpent_game.py\"\n"

/-- Modelled from the spec: the template game implementation file
`templates/SerpentGamePlugin/files/serpent_game.py` is not under the
repository sources.  Per the spec it carries a generic `PLATFORM`
placeholder line and, for each of the three platforms, the fixed literal
lines that `prepare_game_plugin` names exactly: the Steam branch owns the
`app_id`/`app_args` lines, the executable branch the `executable_path`
line, and the web-browser branch the launcher import plus the
`url`/`browser` lines.  Indentation is elided; the transformation is keyed
on the literal texts. -/
def templateSerpentGamePy : String :=
  "from serpent.game import Game\n" ++
  "from serpent.game_launchers.web_browser_game_launcher import WebBrowser\n" ++
  "\n" ++
  "class SerpentGame(Game):\n" ++
  "def __init__(self, **kwargs):\n" ++
  "kwargs[\"platform\"] = \"PLATFORM\"\n" ++
  "kwargs[\"window_name\"] = \"WINDOW_NAME\"\n" ++
  "kwargs[\"app_id\"] = \"APP_ID\"\n" ++
  "kwargs[\"app_args\"] = None\n" ++
  "kwargs[\"executable_path\"] = \"EXECUTABLE_PATH\"\n" ++
  "kwargs[\"url\"] = \"URL\"\n" ++
  "kwargs[\"browser\"] = WebBrowser.DEFAULT\n" ++
  "self.api_class = MyGameAPI\n"

/-- Modelled from the spec: the template game API file
`templates/SerpentGamePlugin/files/api/api.py`, whose placeholder class
name is `MyGameAPI`. -/
def templateApiPy : String :=
  "class MyGameAPI:\ndef __init__(self, game=None):\nself.game = game\n"

/-- Modelled from the spec: the `templates/SerpentGamePlugin` template
tree copied by `prepare_game_plugin` (three files, relative paths as read
and rewritten by the source). -/
def gamePluginTemplate : List (Path × String) :=
  [(["plugin.py"], templatePluginPy),
   (["files", "serpent_game.py"], templateSerpentGamePy),
   (["files", "api", "api.py"], templateApiPy)]

/-- Platform-conditional rewriting of the game file
(serpent.py:583): rewrite the `PLATFORM` placeholder to the chosen
platform, then delete (replace by the empty string) each literal line
belonging to the other two platforms. -/
def applyPlatformRules (game_platform contents : String) : String :=
  if game_platform = "steam" then
    let c := pyReplace contents "PLATFORM" "steam"
    let c := pyReplace c
      "from serpent.game_launchers.web_browser_game_launcher import WebBrowser" ""
    let c := pyReplace c "kwargs[\"executable_path\"] = \"EXECUTABLE_PATH\"" ""
    let c := pyReplace c "kwargs[\"url\"] = \"URL\"" ""
    let c := pyReplace c "kwargs[\"browser\"] = WebBrowser.DEFAULT" ""
    c
  else if game_platform = "executable" then
    let c := pyReplace contents "PLATFORM" "executable"
    let c := pyReplace c
      "from serpent.game_launchers.web_browser_game_launcher import WebBrowser" ""
    let c := pyReplace c "kwargs[\"app_id\"] = \"APP_ID\"" ""
    let c := pyReplace c "kwargs[\"app_args\"] = None" ""
    let c := pyReplace c "kwargs[\"url\"] = \"URL\"" ""
    let c := pyReplace c "kwargs[\"browser\"] = WebBrowser.DEFAULT" ""
    c
  else if game_platform = "web_browser" then
    let c := pyReplace contents "PLATFORM" "web_browser"
    let c := pyReplace c "kwargs[\"app_id\"] = \"APP_ID\"" ""
    let c := pyReplace c "kwargs[\"app_args\"] = None" ""
    let c := pyReplace c "kwargs[\"executable_path\"] = \"EXECUTABLE_PATH\"" ""
    c
  else
    contents

/-- `prepare_game_plugin` (serpent.py:556): compute the destination
`plugins/Serpent<game_name>GamePlugin`, copy the template tree there
(failing when the destination exists), substitute the concrete plugin and
file names in `plugin.py`, rename the game file, substitute the class and
API names and apply the platform rules in the game file, and substitute
the API name in `api.py`.  A failing call returns only the error: Python's
`copytree` raises before creating anything, so a conflicting invocation
leaves the filesystem untouched. -/
def prepare_game_plugin (fs : FS) (game_name game_platform : String) :
    Except PyError FS :=
  let dest : Path := ["plugins", "Serpent" ++ game_name ++ "GamePlugin"]
  match copytree fs gamePluginTemplate dest with
  | .error e => .error e
  | .ok fs1 =>
      match fsFind fs1 (dest ++ ["plugin.py"]) with
      | none => .error (.fileNotFound (dest ++ ["plugin.py"]))
      | some contents =>
          let contents := pyReplace contents "SerpentGamePlugin"
            ("Serpent" ++ game_name ++ "GamePlugin")
          let contents := pyReplace contents "serpent_game.py"
            ("serpent_" ++ game_name ++ "_game.py")
          let fs2 := fsWrite fs1 (dest ++ ["plugin.py"]) contents
          match fsMove fs2 (dest ++ ["files", "serpent_game.py"])
              (dest ++ ["files", "serpent_" ++ game_name ++ "_game.py"]) with
          | .error e => .error e
          | .ok fs3 =>
              match fsFind fs3 (dest ++ ["files", "serpent_" ++ game_name ++ "_game.py"]) with
              | none => .error (.fileNotFound
                  (dest ++ ["files", "serpent_" ++ game_name ++ "_game.py"]))
              | some gcontents =>
                  let gcontents := pyReplace gcontents "SerpentGame"
                    ("Serpent" ++ game_name ++ "Game")
                  let gcontents := pyReplace gcontents "MyGameAPI" (game_name ++ "API")
                  let gcontents := applyPlatformRules game_platform gcontents
                  let fs4 := fsWrite fs3
                    (dest ++ ["files", "serpent_" ++ game_name ++ "_game.py"]) gcontents
                  match fsFind fs4 (dest ++ ["files", "api", "api.py"]) with
                  | none => .error (.fileNotFound (dest ++ ["files", "api", "api.py"]))
                  | some acontents =>
                      let acontents := pyReplace acontents "MyGameAPI" (game_name ++ "API")
                      .ok (fsWrite fs4 (dest ++ ["files", "api", "api.py"]) acontents)

/-! ### Trace checkers -/

/-- Scans a trace keeping the set `acc` of class names already dry-run
launched: every `gamePlay` call must target a class dry-run launched
earlier in the trace. -/
def checkDryPlay : List Event → List String → Bool
  | [], _ => true
  | Event.gameLaunch c true :: es, acc => checkDryPlay es (c :: acc)
  | Event.gamePlay c _ :: es, acc => acc.contains c && checkDryPlay es acc
  | _ :: es, acc => checkDryPlay es acc

/-- Every launch in the trace is live (not dry-run) and no play call is
made. -/
def liveLaunchNoPlay (es : List Event) : Bool :=
  es.all fun e =>
    match e with
    | Event.gameLaunch _ dry => !dry
    | Event.gamePlay _ _ => false
    | _ => true

/-- No terminate/release call appears in the trace. -/
def noTerminateEvent (es : List Event) : Bool :=
  es.all fun e =>
    match e with
    | Event.gameTerminate _ => false
    | _ => true

/-- No interrupt-signal handler installation appears in the trace. -/
def noSignalInstall (es : List Event) : Bool :=
  es.all fun e =>
    match e with
    | Event.signalInstall _ => false
    | _ => true

/-- Scans a trace keeping the owners `acc` whose `on_interrupt` is wired to
SIGINT: every training hand-off must be preceded by a handler installation
forwarding to that same collaborator. -/
def sigintBeforeTrain : List Event → List String → Bool
  | [], _ => true
  | Event.signalInstall t :: es, acc => sigintBeforeTrain es (t :: acc)
  | Event.trainCall t :: es, acc => acc.contains t && sigintBeforeTrain es acc
  | _ :: es, acc => sigintBeforeTrain es acc

/-! ### Scaffolding observations for the Steam generation -/

/-- The literal lines belonging to the executable and web-browser platform
branches (the platforms other than Steam), exactly as named by the Steam
branch of `prepare_game_plugin`. -/
def otherPlatformLines : List String :=
  ["from serpent.game_launchers.web_browser_game_launcher import WebBrowser",
   "kwargs[\"executable_path\"] = \"EXECUTABLE_PATH\"",
   "kwargs[\"url\"] = \"URL\"",
   "kwargs[\"browser\"] = WebBrowser.DEFAULT"]

/-- The game file produced by one generation run: run `prepare_game_plugin`
and read back `plugins/Serpent<name>GamePlugin/files/serpent_<name>_game.py`
from the resulting filesystem. -/
def generatedGameFile (fs : FS) (game_name game_platform : String) : Option String :=
  match prepare_game_plugin fs game_name game_platform with
  | .ok fs2 => fsFind fs2 (["plugins", "Serpent" ++ game_name ++ "GamePlugin"]
      ++ ["files", "serpent_" ++ game_name ++ "_game.py"])
  | .error _ => none

/-- Projects the filesystem out of a successful generation (used to feed a
first generation's output into a second one). -/
def fsOfOk : Except PyError FS → FS
  | .ok fs => fs
  | .error _ => []

/-! ### Occurrence analysis for `str.replace`

The platform-stripping claim quantifies over every generated plugin, so
the behaviour of the `replace` chain must be settled for a symbolic entity
name.  The following decidable checks isolate where a pattern can match
inside a string interleaving fixed template text with occurrences of the
name. -/

/-- Occurrence check: `pat` matches at some position of `s`. -/
def hasMatch (pat : List Char) : List Char → Bool
  | [] => false
  | c :: cs => pat.isPrefixOf (c :: cs) || hasMatch pat cs

/-- Characters the generator's prompt allows in an entity name (titleized,
no spaces): ASCII letters and digits. -/
def nameChar (c : Char) : Bool := c.isAlpha || c.isDigit

/-- No suffix of `L` shorter than `pat` is a prefix of `pat`: a match of
`pat` starting inside `L` then never extends past the end of `L`. -/
def noBoundaryStart (pat : List Char) : List Char → Bool
  | [] => true
  | c :: L =>
      (!((c :: L).isPrefixOf pat && decide (L.length + 1 < pat.length)))
      && noBoundaryStart pat L

/-- For every proper split of `pat` whose head part consists of `P`
characters, the tail part is not a prefix of `front`: a match of `pat`
beginning inside a run of `P` characters then never continues into
`front`. -/
def noCrossInto (P : Char → Bool) (pat front : List Char) : Bool :=
  (List.range pat.length).all fun j =>
    decide (j = 0) || !((pat.take j).all P && (pat.drop j).isPrefixOf front)

/-! ### The template game file, segmented around the entity-name holes

`tmplA1/tmplB1` split the template after the class-name substitution,
`tmplM2/tmplB2` after the API-name substitution, and `tmplM3/tmplA4/
tmplM5/tmplM6/tmplM7` record the concrete flanks after each Steam-branch
rewrite; the generated game file is `tmplA4 ++ name ++ tmplM7 ++ name ++
tmplB2`. -/

/-- Template text before the `SerpentGame` placeholder occurrence. -/
def tmplPre1 : String :=
  "from serpent.game import Game\n" ++
  "from serpent.game_launchers.web_browser_game_launcher import WebBrowser\n" ++
  "\nclass "

/-- Template text after the `SerpentGame` placeholder occurrence. -/
def tmplPost1 : String :=
  "(Game):\n" ++
  "def __init__(self, **kwargs):\n" ++
  "kwargs[\"platform\"] = \"PLATFORM\"\n" ++
  "kwargs[\"window_name\"] = \"WINDOW_NAME\"\n" ++
  "kwargs[\"app_id\"] = \"APP_ID\"\n" ++
  "kwargs[\"app_args\"] = None\n" ++
  "kwargs[\"executable_path\"] = \"EXECUTABLE_PATH\"\n" ++
  "kwargs[\"url\"] = \"URL\"\n" ++
  "kwargs[\"browser\"] = WebBrowser.DEFAULT\n" ++
  "self.api_class = MyGameAPI\n"

/-- Flank before the first name hole after the class-name substitution. -/
def tmplA1 : String :=
  "from serpent.game import Game\n" ++
  "from serpent.game_launchers.web_browser_game_launcher import WebBrowser\n" ++
  "\nclass Serpent"

/-- Flank after the first name hole after the class-name substitution. -/
def tmplB1 : String :=
  "Game(Game):\n" ++
  "def __init__(self, **kwargs):\n" ++
  "kwargs[\"platform\"] = \"PLATFORM\"\n" ++
  "kwargs[\"window_name\"] = \"WINDOW_NAME\"\n" ++
  "kwargs[\"app_id\"] = \"APP_ID\"\n" ++
  "kwargs[\"app_args\"] = None\n" ++
  "kwargs[\"executable_path\"] = \"EXECUTABLE_PATH\"\n" ++
  "kwargs[\"url\"] = \"URL\"\n" ++
  "kwargs[\"browser\"] = WebBrowser.DEFAULT\n" ++
  "self.api_class = MyGameAPI\n"

/-- Middle flank (between the two name holes) after the API-name
substitution. -/
def tmplM2 : String :=
  "Game(Game):\n" ++
  "def __init__(self, **kwargs):\n" ++
  "kwargs[\"platform\"] = \"PLATFORM\"\n" ++
  "kwargs[\"window_name\"] = \"WINDOW_NAME\"\n" ++
  "kwargs[\"app_id\"] = \"APP_ID\"\n" ++
  "kwargs[\"app_args\"] = None\n" ++
  "kwargs[\"executable_path\"] = \"EXECUTABLE_PATH\"\n" ++
  "kwargs[\"url\"] = \"URL\"\n" ++
  "kwargs[\"browser\"] = WebBrowser.DEFAULT\n" ++
  "self.api_class = "

/-- Flank after the second name hole. -/
def tmplB2 : String := "API\n"

/-- Middle flank after the `PLATFORM` rewrite. -/
def tmplM3 : String :=
  "Game(Game):\n" ++
  "def __init__(self, **kwargs):\n" ++
  "kwargs[\"platform\"] = \"steam\"\n" ++
  "kwargs[\"window_name\"] = \"WINDOW_NAME\"\n" ++
  "kwargs[\"app_id\"] = \"APP_ID\"\n" ++
  "kwargs[\"app_args\"] = None\n" ++
  "kwargs[\"executable_path\"] = \"EXECUTABLE_PATH\"\n" ++
  "kwargs[\"url\"] = \"URL\"\n" ++
  "kwargs[\"browser\"] = WebBrowser.DEFAULT\n" ++
  "self.api_class = "

/-- Leading flank after the web-browser import line is deleted. -/
def tmplA4 : String :=
  "from serpent.game import Game\n\n\nclass Serpent"

/-- Middle flank after the executable-path line is deleted. -/
def tmplM5 : String :=
  "Game(Game):\n" ++
  "def __init__(self, **kwargs):\n" ++
  "kwargs[\"platform\"] = \"steam\"\n" ++
  "kwargs[\"window_name\"] = \"WINDOW_NAME\"\n" ++
  "kwargs[\"app_id\"] = \"APP_ID\"\n" ++
  "kwargs[\"app_args\"] = None\n" ++
  "\n" ++
  "kwargs[\"url\"] = \"URL\"\n" ++
  "kwargs[\"browser\"] = WebBrowser.DEFAULT\n" ++
  "self.api_class = "

/-- Middle flank after the url line is deleted. -/
def tmplM6 : String :=
  "Game(Game):\n" ++
  "def __init__(self, **kwargs):\n" ++
  "kwargs[\"platform\"] = \"steam\"\n" ++
  "kwargs[\"window_name\"] = \"WINDOW_NAME\"\n" ++
  "kwargs[\"app_id\"] = \"APP_ID\"\n" ++
  "kwargs[\"app_args\"] = None\n" ++
  "\n\n" ++
  "kwargs[\"browser\"] = WebBrowser.DEFAULT\n" ++
  "self.api_class = "

/-- Middle flank after the browser line is deleted (the final middle
flank of the generated game file). -/
def tmplM7 : String :=
  "Game(Game):\n" ++
  "def __init__(self, **kwargs):\n" ++
  "kwargs[\"platform\"] = \"steam\"\n" ++
  "kwargs[\"window_name\"] = \"WINDOW_NAME\"\n" ++
  "kwargs[\"app_id\"] = \"APP_ID\"\n" ++
  "kwargs[\"app_args\"] = None\n" ++
  "\n\n\n" ++
  "self.api_class = "

/-- An adversarial entity name embedding a newline and literal platform
branch fragments: deleting the browser line out of it reconstitutes the
url line. -/
def evilName : String :=
  "A\nkwargs[\"url\"] = \"U" ++
  "kwargs[\"browser\"] = WebBrowser.DEFAULT" ++ "RL\"\nB"

/-- Whether a generated game file carries the web-browser url line as a
full residual line. -/
def residualUrlLine : Option String → Bool
  | some content => (linesOf content).contains "kwargs[\"url\"] = \"URL\""
  | none => false

/-! ## Claim theorems -/

/-- Claim C1, counterexample: with the game plugin installed but the agent
plugin missing, the `play` handler constructs the game handle and dry-run
launches it, then propagates the agent-lookup failure without ever invoking
terminate on the handle — refuting the claim that terminate is invoked on
every propagated failure after a handle was constructed. -/
theorem c1_counterexample :
    play ["SerpentFooGame"] [] "Foo" "RandomAgent" none
      = ([Event.discoverGame, Event.constructGame "SerpentFooGame",
          Event.gameLaunch "SerpentFooGame" true, Event.discoverGameAgent "RandomAgent"],
         .error (.gameAgentNotFound "RandomAgent"))
    ∧ noTerminateEvent (play ["SerpentFooGame"] [] "Foo" "RandomAgent" none).1 = true := by
  decide

/-- Claim C1, amended: no command handler (play, record, capture, launch)
ever invokes terminate on the game handle — neither on normal completion
nor on a propagated failure; the external process/window binding is simply
left behind. -/
theorem c1_amended_no_terminate (games agents : List String)
    (g a : String) (fh : Option String) (fc fsp i : PyVal) (ct : String)
    (e1 e2 : Option String) :
    noTerminateEvent (play games agents g a fh).1 = true
    ∧ noTerminateEvent (record games g a fc fsp).1 = true
    ∧ noTerminateEvent (capture games ct g i e1 e2).1 = true
    ∧ noTerminateEvent (launch games g).1 = true := by
  by_cases hc : ("Serpent" ++ g ++ "Game") ∈ games
  all_goals refine ⟨?_, ?_, ?_, ?_⟩
  · by_cases ha : a ∈ agents <;>
      simp [play, initialize_game, hc, ha, noTerminateEvent]
  · rcases hfc : pyInt fc with e | n <;> rcases hfs : pyInt fsp with e2 | n2 <;>
      simp [record, initialize_game, hc, hfc, hfs, noTerminateEvent]
  · rcases hfi : pyFloat i with e | v <;>
      by_cases hm : ct ∈ ["frame", "context", "region"] <;>
      by_cases h1 : ct = "frame" <;> by_cases h2 : ct = "context" <;>
      by_cases h3 : ct = "region" <;>
      simp [capture, initialize_game, hc, hfi, hm, h1, h2, h3, noTerminateEvent]
  · simp [launch, initialize_game, hc, noTerminateEvent]
  · simp [play, initialize_game, hc, noTerminateEvent]
  · simp [record, initialize_game, hc, noTerminateEvent]
  · simp [capture, initialize_game, hc, noTerminateEvent]
  · simp [launch, initialize_game, hc, noTerminateEvent]

/-- Claim C2: in every mode-driven command (play, record, every capture
variant) the canonical `game.play` call only ever follows a dry-run
`game.launch(dry_run=True)` on the same game instance, so the handle is
never uninitialized at the play call; the plain `launch` command makes only
a live (non-dry-run) launch and no play call. -/
theorem c2_dry_launch_before_play (games agents : List String)
    (g a : String) (fh : Option String) (fc fsp i : PyVal) (ct : String)
    (e1 e2 : Option String) :
    checkDryPlay (play games agents g a fh).1 [] = true
    ∧ checkDryPlay (record games g a fc fsp).1 [] = true
    ∧ checkDryPlay (capture games ct g i e1 e2).1 [] = true
    ∧ liveLaunchNoPlay (launch games g).1 = true := by
  by_cases hc : ("Serpent" ++ g ++ "Game") ∈ games
  all_goals refine ⟨?_, ?_, ?_, ?_⟩
  · by_cases ha : a ∈ agents <;>
      simp [play, initialize_game, hc, ha, checkDryPlay]
  · rcases hfc : pyInt fc with e | n <;> rcases hfs : pyInt fsp with e2 | n2 <;>
      simp [record, initialize_game, hc, hfc, hfs, checkDryPlay]
  · rcases hfi : pyFloat i with e | v <;>
      by_cases hm : ct ∈ ["frame", "context", "region"] <;>
      by_cases h1 : ct = "frame" <;> by_cases h2 : ct = "context" <;>
      by_cases h3 : ct = "region" <;>
      simp [capture, initialize_game, hc, hfi, hm, h1, h2, h3, checkDryPlay]
  · simp [launch, initialize_game, hc, liveLaunchNoPlay]
  · simp [play, initialize_game, hc, checkDryPlay]
  · simp [record, initialize_game, hc, checkDryPlay]
  · simp [capture, initialize_game, hc, checkDryPlay]
  · simp [launch, initialize_game, hc, liveLaunchNoPlay]


/-- The game file produced by the Steam generation for the entity name
`Foo` (used to witness the platform-stripping property). -/
def fooSteamGameFile : String :=
  "from serpent.game import Game\n\n\nclass SerpentFooGame(Game):\n" ++
  "def __init__(self, **kwargs):\n" ++
  "kwargs[\"platform\"] = \"steam\"\n" ++
  "kwargs[\"window_name\"] = \"WINDOW_NAME\"\n" ++
  "kwargs[\"app_id\"] = \"APP_ID\"\n" ++
  "kwargs[\"app_args\"] = None\n\n\n\n" ++
  "self.api_class = FooAPI\n"

/-! ### String-rewriting lemmas

`prepare_game_plugin` rewrites the template through whole-content
`replace` calls, so settling the platform-stripping claim for a symbolic
entity name needs facts about where `replaceAux` can match in a string
interleaving fixed template text with occurrences of the name. -/

/-- The empty pattern is a prefix of everything. -/
theorem nil_isPrefixOf (l : List Char) : ([] : List Char).isPrefixOf l = true := by
  cases l <;> rfl

/-- A nonempty pattern is not a prefix of the empty list. -/
theorem cons_isPrefixOf_nil (a : Char) (p : List Char) :
    (a :: p).isPrefixOf [] = false := rfl

/-- A prefix of `l` is a prefix of `l ++ t`. -/
theorem isPrefixOf_append_right {p l : List Char} (t : List Char)
    (h : p.isPrefixOf l = true) : p.isPrefixOf (l ++ t) = true := by
  induction p generalizing l with
  | nil => exact nil_isPrefixOf _
  | cons a p' ih =>
      cases l with
      | nil => rw [cons_isPrefixOf_nil] at h; exact absurd h (by decide)
      | cons b l' =>
          simp only [List.cons_append, List.isPrefixOf, Bool.and_eq_true] at h ⊢
          exact ⟨h.1, ih h.2⟩

/-- A pattern no longer than `l` matches `l ++ t` exactly when it matches
`l`. -/
theorem isPrefixOf_append_of_le {p l : List Char} (t : List Char)
    (h : p.length ≤ l.length) : p.isPrefixOf (l ++ t) = p.isPrefixOf l := by
  induction p generalizing l with
  | nil => rw [nil_isPrefixOf, nil_isPrefixOf]
  | cons a p' ih =>
      cases l with
      | nil => simp at h
      | cons b l' =>
          have h' : p'.length ≤ l'.length := by
            simp only [List.length_cons] at h; omega
          simp only [List.cons_append, List.isPrefixOf, List.append_eq]
          rw [ih h']

/-- A match of `pat` on `s ++ C` that is at least as long as `s` splits:
`s` is a prefix of `pat` and the remainder of `pat` matches `C`. -/
theorem isPrefixOf_append_split {pat s C : List Char}
    (h : pat.isPrefixOf (s ++ C) = true) (hlen : s.length ≤ pat.length) :
    s.isPrefixOf pat = true ∧ (pat.drop s.length).isPrefixOf C = true := by
  induction s generalizing pat with
  | nil => exact ⟨nil_isPrefixOf _, h⟩
  | cons a s' ih =>
      cases pat with
      | nil => simp at hlen
      | cons b pat' =>
          simp only [List.cons_append, List.isPrefixOf, Bool.and_eq_true,
            beq_iff_eq] at h
          have hlen' : s'.length ≤ pat'.length := by
            simp only [List.length_cons] at hlen; omega
          have h2 := ih h.2 hlen'
          refine ⟨?_, ?_⟩
          · simp only [List.isPrefixOf, Bool.and_eq_true, beq_iff_eq]
            exact ⟨h.1.symm, h2.1⟩
          · simpa only [List.length_cons, List.drop_succ_cons] using h2.2

/-- The characters of a prefix inherit a pointwise property of the whole
list. -/
theorem all_of_isPrefixOf {p l : List Char} (P : Char → Bool)
    (h : p.isPrefixOf l = true) (hall : l.all P = true) : p.all P = true := by
  induction p generalizing l with
  | nil => rfl
  | cons a p' ih =>
      cases l with
      | nil => rw [cons_isPrefixOf_nil] at h; exact absurd h (by decide)
      | cons b l' =>
          simp only [List.isPrefixOf, Bool.and_eq_true, beq_iff_eq] at h
          simp only [List.all_cons, Bool.and_eq_true] at hall ⊢
          exact ⟨h.1 ▸ hall.1, ih h.2 hall.2⟩

/-- Every list is a Boolean prefix of itself. -/
theorem isPrefixOf_self (l : List Char) : l.isPrefixOf l = true := by
  induction l with
  | nil => rfl
  | cons a l' ih =>
      simp only [List.isPrefixOf, Bool.and_eq_true]
      exact ⟨beq_self_eq_true a, ih⟩

/-- `replaceAux` ignores its fuel as soon as the fuel covers the subject
length. -/
theorem replaceAux_fuel (pat rep : List Char) :
    ∀ (f1 : Nat) (s : List Char) (f2 : Nat), s.length ≤ f1 → s.length ≤ f2 →
    replaceAux pat rep f1 s = replaceAux pat rep f2 s := by
  intro f1
  induction f1 with
  | zero =>
      intro s f2 h1 _
      have : s = [] := List.eq_nil_of_length_eq_zero (Nat.le_zero.mp h1)
      subst this
      cases f2 <;> rfl
  | succ n ih =>
      intro s f2 h1 h2
      cases s with
      | nil => cases f2 <;> rfl
      | cons c cs =>
          cases f2 with
          | zero => simp at h2
          | succ m =>
              have hn : cs.length ≤ n := by simp at h1; omega
              have hm : cs.length ≤ m := by simp at h2; omega
              simp only [replaceAux]
              split
              · have hdn : (List.drop (pat.length - 1) cs).length ≤ n := by
                  simp [List.length_drop]; omega
                have hdm : (List.drop (pat.length - 1) cs).length ≤ m := by
                  simp [List.length_drop]; omega
                rw [ih _ m hdn hdm]
              · rw [ih _ m hn hm]

/-- A Boolean prefix is literally the take of its length. -/
theorem take_of_isPrefixOf {s p : List Char} (h : s.isPrefixOf p = true) :
    p.take s.length = s := by
  induction s generalizing p with
  | nil => rfl
  | cons a s' ih =>
      cases p with
      | nil => rw [cons_isPrefixOf_nil] at h; exact absurd h (by decide)
      | cons b p' =>
          simp only [List.isPrefixOf, Bool.and_eq_true, beq_iff_eq] at h
          simp only [List.length_cons, List.take_succ_cons]
          rw [ih h.2, h.1]

/-- A match inside `C` is a match inside `y ++ C`. -/
theorem hasMatch_append_right {pat C : List Char} (y : List Char)
    (h : hasMatch pat C = true) : hasMatch pat (y ++ C) = true := by
  induction y with
  | nil => exact h
  | cons a y' ih =>
      simp only [List.cons_append, hasMatch, Bool.or_eq_true]
      exact Or.inr ih

/-- A match inside `y` is a match inside `y ++ C`. -/
theorem hasMatch_append_left {pat y : List Char} (C : List Char)
    (h : hasMatch pat y = true) : hasMatch pat (y ++ C) = true := by
  induction y with
  | nil => exact Bool.noConfusion ((rfl : hasMatch pat [] = false) ▸ h)
  | cons a y' ih =>
      simp only [hasMatch, Bool.or_eq_true] at h
      simp only [List.cons_append, hasMatch, Bool.or_eq_true]
      rcases h with h1 | h2
      · left
        have := isPrefixOf_append_right C h1
        rwa [List.cons_append] at this
      · exact Or.inr (ih h2)

/-- A nonempty pattern matches at the head of `pat ++ t`. -/
theorem hasMatch_self_append {pat : List Char} (hpat : pat ≠ []) (t : List Char) :
    hasMatch pat (pat ++ t) = true := by
  cases pat with
  | nil => exact absurd rfl hpat
  | cons a p' =>
      simp only [List.cons_append, hasMatch, Bool.or_eq_true]
      left
      have := isPrefixOf_append_right t (isPrefixOf_self (a :: p'))
      rwa [List.cons_append] at this

/-- Without a match anywhere in `s`, `replaceAux` is the identity. -/
theorem replaceAux_no_match (pat rep : List Char) :
    ∀ (s : List Char) (f : Nat), s.length ≤ f → hasMatch pat s = false →
    replaceAux pat rep f s = s := by
  intro s
  induction s with
  | nil => intro f _ _; cases f <;> rfl
  | cons c cs ih =>
      intro f hf hm
      cases f with
      | zero => simp at hf
      | succ n =>
          rw [hasMatch] at hm
          rcases Bool.or_eq_false_iff.mp hm with ⟨hp, hm'⟩
          have hcs : cs.length ≤ n := by simp at hf; omega
          simp only [replaceAux, hp]
          simp only [Bool.false_eq_true, if_false]
          rw [ih n hcs hm']

/-- `noBoundaryStart` carries over to the tail. -/
theorem noBoundaryStart_tail {pat : List Char} {c : Char} {L : List Char}
    (h : noBoundaryStart pat (c :: L) = true) : noBoundaryStart pat L = true := by
  simp only [noBoundaryStart, Bool.and_eq_true] at h
  exact h.2

/-- `noBoundaryStart` carries over to any suffix. -/
theorem noBoundaryStart_drop {pat : List Char} (k : Nat) :
    ∀ {L : List Char}, noBoundaryStart pat L = true →
    noBoundaryStart pat (L.drop k) = true := by
  induction k with
  | zero => intro L h; exact h
  | succ k' ih =>
      intro L h
      cases L with
      | nil => exact h
      | cons c L' => exact ih (noBoundaryStart_tail h)

/-- With `noBoundaryStart` protection, a nonempty-list head match longer
than the list is impossible. -/
theorem noBoundaryStart_head {pat : List Char} {c : Char} {L : List Char}
    (h : noBoundaryStart pat (c :: L) = true)
    (hp : (c :: L).isPrefixOf pat = true) : pat.length ≤ L.length + 1 := by
  by_contra hlt
  simp only [noBoundaryStart, Bool.and_eq_true, Bool.not_eq_true'] at h
  have h1 := h.1
  rw [hp] at h1
  simp at h1
  omega

/-- Head-position analysis: with `noBoundaryStart` protection, a match at
the head of `(c :: L') ++ C` is a match at the head of `c :: L'` itself
and fits inside it. -/
theorem isPrefixOf_head_of_append {pat : List Char} {c : Char} {L' C : List Char}
    (hb : noBoundaryStart pat (c :: L') = true)
    (hp : pat.isPrefixOf (c :: (L' ++ C)) = true) :
    pat.isPrefixOf (c :: L') = true ∧ pat.length ≤ L'.length + 1 := by
  by_cases hfit : pat.length ≤ L'.length + 1
  · have heq := isPrefixOf_append_of_le (p := pat) (l := c :: L') C
      (by simp only [List.length_cons]; omega)
    rw [List.cons_append] at heq
    rw [heq] at hp
    exact ⟨hp, hfit⟩
  · exfalso
    have hsl : (c :: L').length ≤ pat.length := by
      simp only [List.length_cons]; omega
    have hsp := isPrefixOf_append_split (s := c :: L') (C := C)
      (by rwa [List.cons_append]) hsl
    have := noBoundaryStart_head hb hsp.1
    omega

/-- Splitting `replaceAux` at a literal boundary: when no suffix of `L`
shorter than `pat` is a prefix of `pat`, matches never straddle the end of
`L`, so the rewrite proceeds independently on `L` and on the
continuation. -/
theorem replaceAux_append_lit (pat rep : List Char) :
    ∀ (f : Nat) (L C : List Char), L.length + C.length ≤ f →
    noBoundaryStart pat L = true →
    replaceAux pat rep f (L ++ C)
      = replaceAux pat rep L.length L ++ replaceAux pat rep C.length C := by
  intro f
  induction f with
  | zero =>
      intro L C hf _
      have hL : L = [] := List.eq_nil_of_length_eq_zero (by omega)
      have hC : C = [] := List.eq_nil_of_length_eq_zero (by omega)
      subst hL; subst hC; rfl
  | succ n ih =>
      intro L C hf hb
      cases L with
      | nil =>
          show replaceAux pat rep (n + 1) C = replaceAux pat rep C.length C
          exact replaceAux_fuel pat rep (n + 1) C C.length (by simpa using hf)
            (Nat.le_refl _)
      | cons c L' =>
          have hlen' : L'.length + C.length ≤ n := by
            simp only [List.length_cons] at hf; omega
          by_cases hp : pat.isPrefixOf (c :: (L' ++ C)) = true
          · obtain ⟨hploc, hfit⟩ := isPrefixOf_head_of_append hb hp
            have hd : List.drop (pat.length - 1) (L' ++ C)
                = List.drop (pat.length - 1) L' ++ C :=
              List.drop_append_of_le_length (by omega)
            show replaceAux pat rep (n + 1) (c :: (L' ++ C)) = _
            simp only [replaceAux, hp, if_true, List.length_cons, hploc]
            rw [hd]
            have hdlen : (List.drop (pat.length - 1) L').length ≤ L'.length := by
              simp [List.length_drop]
            rw [ih (List.drop (pat.length - 1) L') C (by omega)
              (noBoundaryStart_drop _ (noBoundaryStart_tail hb))]
            rw [replaceAux_fuel pat rep L'.length (List.drop (pat.length - 1) L')
              (List.drop (pat.length - 1) L').length (by omega) (Nat.le_refl _)]
            rw [List.append_assoc]
          · have hploc : pat.isPrefixOf (c :: L') = false := by
              cases hpl : pat.isPrefixOf (c :: L') with
              | false => rfl
              | true =>
                  have := isPrefixOf_append_right C hpl
                  rw [List.cons_append] at this
                  rw [this] at hp
                  exact absurd rfl hp
            show replaceAux pat rep (n + 1) (c :: (L' ++ C)) = _
            simp only [replaceAux, hp, hploc, List.length_cons,
              Bool.false_eq_true, if_false]
            rw [ih L' C hlen' (noBoundaryStart_tail hb)]
            rw [List.cons_append]

/-- `replaceAux` at an exact occurrence of the pattern: emits the
replacement and continues after the matched text. -/
theorem replaceAux_match_head (pat rep : List Char) (hpat : pat ≠ []) :
    ∀ (f : Nat) (C : List Char), pat.length + C.length ≤ f →
    replaceAux pat rep f (pat ++ C) = rep ++ replaceAux pat rep C.length C := by
  intro f C hf
  cases pat with
  | nil => exact absurd rfl hpat
  | cons a p' =>
      cases f with
      | zero => simp at hf
      | succ n =>
          have hself : (a :: p').isPrefixOf (a :: (p' ++ C)) = true := by
            have := isPrefixOf_append_right C (isPrefixOf_self (a :: p'))
            rwa [List.cons_append] at this
          show replaceAux (a :: p') rep (n + 1) (a :: (p' ++ C)) = _
          simp only [replaceAux, hself, if_true]
          have hd : List.drop ((a :: p').length - 1) (p' ++ C) = C := by
            simp only [List.length_cons, Nat.add_sub_cancel]
            exact List.drop_left p' C
          rw [hd]
          congr 1
          exact replaceAux_fuel (a :: p') rep n C C.length
            (by simp only [List.length_cons] at hf; omega) (Nat.le_refl _)

/-- Unpacking `noCrossInto`. -/
theorem noCrossInto_spec {P : Char → Bool} {pat front : List Char}
    (h : noCrossInto P pat front = true) :
    ∀ j, 0 < j → j < pat.length → (pat.take j).all P = true →
      (pat.drop j).isPrefixOf front = false := by
  intro j hj hjlen hall
  have hmem : j ∈ List.range pat.length := List.mem_range.mpr hjlen
  have hx := (List.all_eq_true.mp h) j hmem
  simp only [Bool.or_eq_true, decide_eq_true_eq] at hx
  rcases hx with h0 | hnb
  · omega
  · rw [Bool.not_eq_true'] at hnb
    rw [hall, Bool.true_and] at hnb
    exact hnb

/-- `replaceAux` passes untouched over a run of `P`-characters when the
pattern neither occurs inside the run nor can cross out of it. -/
theorem replaceAux_skip_hole (pat rep : List Char) (P : Char → Bool) :
    ∀ (x C : List Char) (f : Nat), x.length + C.length ≤ f →
    x.all P = true → hasMatch pat x = false →
    (∀ j, 0 < j → j < pat.length → (pat.take j).all P = true →
      (pat.drop j).isPrefixOf C = false) →
    replaceAux pat rep f (x ++ C) = x ++ replaceAux pat rep C.length C := by
  intro x
  induction x with
  | nil =>
      intro C f hf _ _ _
      show replaceAux pat rep f C = replaceAux pat rep C.length C
      exact replaceAux_fuel pat rep f C C.length (by simpa using hf) (Nat.le_refl _)
  | cons c x' ih =>
      intro C f hf hall hins hcross
      cases f with
      | zero => simp at hf
      | succ n =>
          have hp : pat.isPrefixOf (c :: (x' ++ C)) = false := by
            cases hpt : pat.isPrefixOf (c :: (x' ++ C)) with
            | false => rfl
            | true =>
                exfalso
                by_cases hfit : pat.length ≤ x'.length + 1
                · have heq := isPrefixOf_append_of_le (p := pat) (l := c :: x') C
                    (by simp only [List.length_cons]; omega)
                  rw [List.cons_append] at heq
                  rw [heq] at hpt
                  have : hasMatch pat (c :: x') = true := by
                    rw [hasMatch, hpt]; rfl
                  rw [hins] at this
                  exact Bool.noConfusion this
                · have hsl : (c :: x').length ≤ pat.length := by
                    simp only [List.length_cons]; omega
                  have hsp := isPrefixOf_append_split (s := c :: x') (C := C)
                    (by rwa [List.cons_append]) hsl
                  have hallp : (pat.take (c :: x').length).all P = true := by
                    rw [take_of_isPrefixOf hsp.1]
                    exact hall
                  have hcr := hcross (c :: x').length (by simp)
                    (by simp only [List.length_cons] at hsl ⊢; omega) hallp
                  rw [hsp.2] at hcr
                  exact Bool.noConfusion hcr
          have hins' : hasMatch pat x' = false := by
            rw [hasMatch] at hins
            exact (Bool.or_eq_false_iff.mp hins).2
          have hall' : x'.all P = true := by
            simp only [List.all_cons, Bool.and_eq_true] at hall
            exact hall.2
          show replaceAux pat rep (n + 1) (c :: (x' ++ C)) = _
          simp only [replaceAux, hp, Bool.false_eq_true, if_false]
          rw [ih C n (by simp only [List.length_cons] at hf; omega) hall' hins' hcross]
          rw [List.cons_append]

/-- No match in `L ++ C` when `L` and `C` are match-free and no match can
straddle the boundary. -/
theorem hasMatch_append_lit_false {pat : List Char} :
    ∀ (L C : List Char), noBoundaryStart pat L = true →
    hasMatch pat L = false → hasMatch pat C = false →
    hasMatch pat (L ++ C) = false := by
  intro L
  induction L with
  | nil => intro C _ _ hC; exact hC
  | cons c L' ih =>
      intro C hb hL hC
      rw [hasMatch] at hL
      rcases Bool.or_eq_false_iff.mp hL with ⟨hp1, hL'⟩
      have hph : pat.isPrefixOf (c :: (L' ++ C)) = false := by
        cases hpt : pat.isPrefixOf (c :: (L' ++ C)) with
        | false => rfl
        | true =>
            obtain ⟨hploc, _⟩ := isPrefixOf_head_of_append hb hpt
            rw [hp1] at hploc
            exact Bool.noConfusion hploc
      show hasMatch pat (c :: (L' ++ C)) = false
      rw [hasMatch, hph, Bool.false_or]
      exact ih C (noBoundaryStart_tail hb) hL' hC

/-- No match in `x ++ C` when the pattern neither occurs in the
`P`-character run `x`, nor crosses out of it, nor occurs in `C`. -/
theorem hasMatch_skip_hole_false {pat : List Char} {P : Char → Bool} :
    ∀ (x C : List Char), x.all P = true → hasMatch pat x = false →
    (∀ j, 0 < j → j < pat.length → (pat.take j).all P = true →
      (pat.drop j).isPrefixOf C = false) →
    hasMatch pat C = false → hasMatch pat (x ++ C) = false := by
  intro x
  induction x with
  | nil => intro C _ _ _ hC; exact hC
  | cons c x' ih =>
      intro C hall hins hcross hC
      have hph : pat.isPrefixOf (c :: (x' ++ C)) = false := by
        cases hpt : pat.isPrefixOf (c :: (x' ++ C)) with
        | false => rfl
        | true =>
            exfalso
            by_cases hfit : pat.length ≤ x'.length + 1
            · have heq := isPrefixOf_append_of_le (p := pat) (l := c :: x') C
                (by simp only [List.length_cons]; omega)
              rw [List.cons_append] at heq
              rw [heq] at hpt
              have : hasMatch pat (c :: x') = true := by
                rw [hasMatch, hpt]; rfl
              rw [hins] at this
              exact Bool.noConfusion this
            · have hsl : (c :: x').length ≤ pat.length := by
                simp only [List.length_cons]; omega
              have hsp := isPrefixOf_append_split (s := c :: x') (C := C)
                (by rwa [List.cons_append]) hsl
              have hallp : (pat.take (c :: x').length).all P = true := by
                rw [take_of_isPrefixOf hsp.1]
                exact hall
              have hcr := hcross (c :: x').length (by simp)
                (by simp only [List.length_cons] at hsl ⊢; omega) hallp
              rw [hsp.2] at hcr
              exact Bool.noConfusion hcr
      have hins' : hasMatch pat x' = false := by
        rw [hasMatch] at hins
        exact (Bool.or_eq_false_iff.mp hins).2
      have hall' : x'.all P = true := by
        simp only [List.all_cons, Bool.and_eq_true] at hall
        exact hall.2
      show hasMatch pat (c :: (x' ++ C)) = false
      rw [hasMatch, hph, Bool.false_or]
      exact ih C hall' hins' hcross hC

/-- A pattern with a character outside `P` has no occurrence inside a run
of `P`-characters. -/
theorem hasMatch_of_not_allP {pat : List Char} {P : Char → Bool}
    (hp : pat.all P = false) :
    ∀ {x : List Char}, x.all P = true → hasMatch pat x = false := by
  intro x
  induction x with
  | nil => intro _; rfl
  | cons c x' ih =>
      intro hall
      have hall' : x'.all P = true := by
        simp only [List.all_cons, Bool.and_eq_true] at hall
        exact hall.2
      have hph : pat.isPrefixOf (c :: x') = false := by
        cases hpt : pat.isPrefixOf (c :: x') with
        | false => rfl
        | true =>
            have := all_of_isPrefixOf P hpt hall
            rw [hp] at this
            exact Bool.noConfusion this
      rw [hasMatch, hph, Bool.false_or]
      exact ih hall'

/-- `pyReplace` for a nonempty pattern, unfolded. -/
theorem pyReplace_eq {s pat rep : String} (h : pat.data.isEmpty = false) :
    pyReplace s pat rep
      = ⟨replaceAux pat.data rep.data s.data.length s.data⟩ := by
  simp [pyReplace, h]

/-- Crossing out of a run never reaches past a front segment at least as
long as the pattern. -/
theorem hcross_of_front {P : Char → Bool} {pat front : List Char}
    (rest : List Char) (hlen : pat.length ≤ front.length)
    (h : noCrossInto P pat front = true) :
    ∀ j, 0 < j → j < pat.length → (pat.take j).all P = true →
      (pat.drop j).isPrefixOf (front ++ rest) = false := by
  intro j hj hjl hall
  rw [isPrefixOf_append_of_le rest (by simp [List.length_drop]; omega)]
  exact noCrossInto_spec h j hj hjl hall

/-- `pyReplace` on a subject that interleaves one run of `P`-characters
between two protected segments rewrites the segments independently and
leaves the run untouched. -/
theorem pyReplace_one_hole (s pat rep : String) (P : Char → Bool)
    (A x B : List Char) (hs : s.data = A ++ (x ++ B))
    (hpe : pat.data.isEmpty = false)
    (hbA : noBoundaryStart pat.data A = true)
    (hx : x.all P = true)
    (hins : hasMatch pat.data x = false)
    (hcB : noCrossInto P pat.data B = true) :
    pyReplace s pat rep
      = ⟨replaceAux pat.data rep.data A.length A
          ++ (x ++ replaceAux pat.data rep.data B.length B)⟩ := by
  rw [pyReplace_eq hpe, hs]
  congr 1
  rw [replaceAux_append_lit pat.data rep.data (A ++ (x ++ B)).length A (x ++ B)
    (by simp [List.length_append]) hbA]
  congr 1
  rw [replaceAux_skip_hole pat.data rep.data P x B (x ++ B).length
    (by simp [List.length_append]) hx hins (noCrossInto_spec hcB)]

/-- `pyReplace` on a subject that interleaves two runs of `P`-characters
between three protected segments rewrites the segments independently and
leaves the runs untouched. -/
theorem pyReplace_two_hole (s pat rep : String) (P : Char → Bool)
    (A x M B : List Char) (hs : s.data = A ++ (x ++ (M ++ (x ++ B))))
    (hpe : pat.data.isEmpty = false)
    (hbA : noBoundaryStart pat.data A = true)
    (hbM : noBoundaryStart pat.data M = true)
    (hx : x.all P = true)
    (hins : hasMatch pat.data x = false)
    (hlenM : pat.data.length ≤ M.length)
    (hcM : noCrossInto P pat.data M = true)
    (hcB : noCrossInto P pat.data B = true) :
    pyReplace s pat rep
      = ⟨replaceAux pat.data rep.data A.length A
          ++ (x ++ (replaceAux pat.data rep.data M.length M
          ++ (x ++ replaceAux pat.data rep.data B.length B)))⟩ := by
  rw [pyReplace_eq hpe, hs]
  congr 1
  rw [replaceAux_append_lit pat.data rep.data (A ++ (x ++ (M ++ (x ++ B)))).length
    A (x ++ (M ++ (x ++ B))) (by simp [List.length_append]) hbA]
  congr 1
  rw [replaceAux_skip_hole pat.data rep.data P x (M ++ (x ++ B))
    (x ++ (M ++ (x ++ B))).length (by simp [List.length_append]) hx hins
    (hcross_of_front (x ++ B) hlenM hcM)]
  congr 1
  rw [replaceAux_append_lit pat.data rep.data (M ++ (x ++ B)).length M (x ++ B)
    (by simp [List.length_append]) hbM]
  congr 1
  rw [replaceAux_skip_hole pat.data rep.data P x B (x ++ B).length
    (by simp [List.length_append]) hx hins (noCrossInto_spec hcB)]

/-- No-match version of the two-hole decomposition: the pattern occurs
nowhere in the interleaved subject. -/
theorem hasMatch_two_hole_false {pat : List Char} {P : Char → Bool}
    {A x M B : List Char}
    (hbA : noBoundaryStart pat A = true)
    (hbM : noBoundaryStart pat M = true)
    (hx : x.all P = true)
    (hins : hasMatch pat x = false)
    (hlenM : pat.length ≤ M.length)
    (hcM : noCrossInto P pat M = true)
    (hcB : noCrossInto P pat B = true)
    (hA : hasMatch pat A = false)
    (hM : hasMatch pat M = false)
    (hB : hasMatch pat B = false) :
    hasMatch pat (A ++ (x ++ (M ++ (x ++ B)))) = false := by
  refine hasMatch_append_lit_false A _ hbA hA ?_
  refine hasMatch_skip_hole_false x _ hx hins (hcross_of_front (x ++ B) hlenM hcM) ?_
  refine hasMatch_append_lit_false M _ hbM hM ?_
  exact hasMatch_skip_hole_false x B hx hins (noCrossInto_spec hcB) hB

/-! ### The Steam generation pipeline, step by step

Each step tracks the generated game-file content as concrete template
flanks around two copies of the symbolic entity name. -/

set_option maxRecDepth 1000000 in
/-- Class-name substitution: the single `SerpentGame` occurrence becomes
`Serpent<name>Game`. -/
theorem steam_step1 (name : String) :
    pyReplace templateSerpentGamePy "SerpentGame" ("Serpent" ++ name ++ "Game")
      = ⟨tmplA1.data ++ (name.data ++ tmplB1.data)⟩ := by
  have hsub : templateSerpentGamePy.data
      = tmplPre1.data ++ ("SerpentGame".data ++ tmplPost1.data) := by decide
  rw [pyReplace_eq (by decide), hsub]
  congr 1
  rw [replaceAux_append_lit "SerpentGame".data _
    (tmplPre1.data ++ ("SerpentGame".data ++ tmplPost1.data)).length
    tmplPre1.data ("SerpentGame".data ++ tmplPost1.data)
    (by simp only [List.length_append]; omega) (by decide)]
  rw [replaceAux_no_match _ _ tmplPre1.data _ (Nat.le_refl _) (by decide)]
  rw [replaceAux_match_head "SerpentGame".data _ (by decide) _ tmplPost1.data
    (by simp only [List.length_append]; omega)]
  rw [replaceAux_no_match _ _ tmplPost1.data _ (Nat.le_refl _) (by decide)]
  rw [show ("Serpent" ++ name ++ "Game").data
      = ("Serpent".data ++ name.data) ++ "Game".data from by
    simp [String.data_append]]
  rw [show tmplA1.data = tmplPre1.data ++ "Serpent".data from by decide,
    show tmplB1.data = "Game".data ++ tmplPost1.data from by decide]
  simp [List.append_assoc]

set_option maxRecDepth 1000000 in
/-- API-name substitution: the single `MyGameAPI` occurrence (in the
concrete trailing flank) becomes `<name>API`, producing the second name
hole. -/
theorem steam_step2 (name : String)
    (h1 : name.data.all nameChar = true)
    (h3 : hasMatch "MyGameAPI".data name.data = false) :
    pyReplace (⟨tmplA1.data ++ (name.data ++ tmplB1.data)⟩ : String)
        "MyGameAPI" (name ++ "API")
      = ⟨tmplA1.data ++ (name.data
          ++ (tmplM2.data ++ (name.data ++ tmplB2.data)))⟩ := by
  rw [pyReplace_one_hole _ _ _ nameChar tmplA1.data name.data tmplB1.data rfl
    (by decide) (by decide) h1 h3 (by decide)]
  rw [replaceAux_no_match _ _ tmplA1.data _ (Nat.le_refl _) (by decide)]
  rw [show tmplB1.data = tmplM2.data ++ ("MyGameAPI".data ++ "\n".data) from
    by decide]
  rw [replaceAux_append_lit "MyGameAPI".data _
    (tmplM2.data ++ ("MyGameAPI".data ++ "\n".data)).length
    tmplM2.data ("MyGameAPI".data ++ "\n".data)
    (by simp only [List.length_append]; omega) (by decide)]
  rw [replaceAux_no_match _ _ tmplM2.data _ (Nat.le_refl _) (by decide)]
  rw [replaceAux_match_head "MyGameAPI".data _ (by decide) _ "\n".data
    (by simp only [List.length_append]; omega)]
  rw [replaceAux_no_match _ _ "\n".data _ (Nat.le_refl _) (by decide)]
  rw [show (name ++ "API").data = name.data ++ "API".data from by
    simp [String.data_append]]
  congr 1
  simp only [List.append_assoc]
  rw [show "API".data ++ "\n".data = tmplB2.data from by decide]

set_option maxRecDepth 1000000 in
/-- The `PLATFORM` placeholder rewrite: only the placeholder line in the
middle flank changes. -/
theorem steam_step3 (name : String)
    (h1 : name.data.all nameChar = true)
    (h2 : hasMatch "PLATFORM".data name.data = false) :
    pyReplace (⟨tmplA1.data ++ (name.data
        ++ (tmplM2.data ++ (name.data ++ tmplB2.data)))⟩ : String)
        "PLATFORM" "steam"
      = ⟨tmplA1.data ++ (name.data
          ++ (tmplM3.data ++ (name.data ++ tmplB2.data)))⟩ := by
  rw [pyReplace_two_hole _ _ _ nameChar tmplA1.data name.data tmplM2.data
    tmplB2.data rfl (by decide) (by decide) (by decide) h1 h2 (by decide)
    (by decide) (by decide)]
  rw [show replaceAux "PLATFORM".data "steam".data tmplA1.data.length
      tmplA1.data = tmplA1.data from by decide]
  rw [show replaceAux "PLATFORM".data "steam".data tmplM2.data.length
      tmplM2.data = tmplM3.data from by decide]
  rw [show replaceAux "PLATFORM".data "steam".data tmplB2.data.length
      tmplB2.data = tmplB2.data from by decide]

set_option maxRecDepth 1000000 in
/-- Deleting the web-browser launcher import: only the leading flank
changes. -/
theorem steam_step4 (name : String)
    (h1 : name.data.all nameChar = true) :
    pyReplace (⟨tmplA1.data ++ (name.data
        ++ (tmplM3.data ++ (name.data ++ tmplB2.data)))⟩ : String)
        "from serpent.game_launchers.web_browser_game_launcher import WebBrowser" ""
      = ⟨tmplA4.data ++ (name.data
          ++ (tmplM3.data ++ (name.data ++ tmplB2.data)))⟩ := by
  rw [pyReplace_two_hole _ _ _ nameChar tmplA1.data name.data tmplM3.data
    tmplB2.data rfl (by decide) (by decide) (by decide) h1
    (hasMatch_of_not_allP (by decide) h1) (by decide) (by decide) (by decide)]
  rw [show replaceAux
      "from serpent.game_launchers.web_browser_game_launcher import WebBrowser".data
      "".data tmplA1.data.length tmplA1.data = tmplA4.data from by decide]
  rw [show replaceAux
      "from serpent.game_launchers.web_browser_game_launcher import WebBrowser".data
      "".data tmplM3.data.length tmplM3.data = tmplM3.data from by decide]
  rw [show replaceAux
      "from serpent.game_launchers.web_browser_game_launcher import WebBrowser".data
      "".data tmplB2.data.length tmplB2.data = tmplB2.data from by decide]

set_option maxRecDepth 1000000 in
/-- Deleting the executable-path line: only the middle flank changes. -/
theorem steam_step5 (name : String)
    (h1 : name.data.all nameChar = true) :
    pyReplace (⟨tmplA4.data ++ (name.data
        ++ (tmplM3.data ++ (name.data ++ tmplB2.data)))⟩ : String)
        "kwargs[\"executable_path\"] = \"EXECUTABLE_PATH\"" ""
      = ⟨tmplA4.data ++ (name.data
          ++ (tmplM5.data ++ (name.data ++ tmplB2.data)))⟩ := by
  rw [pyReplace_two_hole _ _ _ nameChar tmplA4.data name.data tmplM3.data
    tmplB2.data rfl (by decide) (by decide) (by decide) h1
    (hasMatch_of_not_allP (by decide) h1) (by decide) (by decide) (by decide)]
  rw [show replaceAux "kwargs[\"executable_path\"] = \"EXECUTABLE_PATH\"".data
      "".data tmplA4.data.length tmplA4.data = tmplA4.data from by decide]
  rw [show replaceAux "kwargs[\"executable_path\"] = \"EXECUTABLE_PATH\"".data
      "".data tmplM3.data.length tmplM3.data = tmplM5.data from by decide]
  rw [show replaceAux "kwargs[\"executable_path\"] = \"EXECUTABLE_PATH\"".data
      "".data tmplB2.data.length tmplB2.data = tmplB2.data from by decide]

set_option maxRecDepth 1000000 in
/-- Deleting the url line: only the middle flank changes. -/
theorem steam_step6 (name : String)
    (h1 : name.data.all nameChar = true) :
    pyReplace (⟨tmplA4.data ++ (name.data
        ++ (tmplM5.data ++ (name.data ++ tmplB2.data)))⟩ : String)
        "kwargs[\"url\"] = \"URL\"" ""
      = ⟨tmplA4.data ++ (name.data
          ++ (tmplM6.data ++ (name.data ++ tmplB2.data)))⟩ := by
  rw [pyReplace_two_hole _ _ _ nameChar tmplA4.data name.data tmplM5.data
    tmplB2.data rfl (by decide) (by decide) (by decide) h1
    (hasMatch_of_not_allP (by decide) h1) (by decide) (by decide) (by decide)]
  rw [show replaceAux "kwargs[\"url\"] = \"URL\"".data
      "".data tmplA4.data.length tmplA4.data = tmplA4.data from by decide]
  rw [show replaceAux "kwargs[\"url\"] = \"URL\"".data
      "".data tmplM5.data.length tmplM5.data = tmplM6.data from by decide]
  rw [show replaceAux "kwargs[\"url\"] = \"URL\"".data
      "".data tmplB2.data.length tmplB2.data = tmplB2.data from by decide]

set_option maxRecDepth 1000000 in
/-- Deleting the browser line: only the middle flank changes, yielding the
final generated game-file shape. -/
theorem steam_step7 (name : String)
    (h1 : name.data.all nameChar = true) :
    pyReplace (⟨tmplA4.data ++ (name.data
        ++ (tmplM6.data ++ (name.data ++ tmplB2.data)))⟩ : String)
        "kwargs[\"browser\"] = WebBrowser.DEFAULT" ""
      = ⟨tmplA4.data ++ (name.data
          ++ (tmplM7.data ++ (name.data ++ tmplB2.data)))⟩ := by
  rw [pyReplace_two_hole _ _ _ nameChar tmplA4.data name.data tmplM6.data
    tmplB2.data rfl (by decide) (by decide) (by decide) h1
    (hasMatch_of_not_allP (by decide) h1) (by decide) (by decide) (by decide)]
  rw [show replaceAux "kwargs[\"browser\"] = WebBrowser.DEFAULT".data
      "".data tmplA4.data.length tmplA4.data = tmplA4.data from by decide]
  rw [show replaceAux "kwargs[\"browser\"] = WebBrowser.DEFAULT".data
      "".data tmplM6.data.length tmplM6.data = tmplM7.data from by decide]
  rw [show replaceAux "kwargs[\"browser\"] = WebBrowser.DEFAULT".data
      "".data tmplB2.data.length tmplB2.data = tmplB2.data from by decide]

/-- The Steam branch of `applyPlatformRules`, unfolded. -/
theorem applyPlatformRules_steam (contents : String) :
    applyPlatformRules "steam" contents
      = pyReplace (pyReplace (pyReplace (pyReplace (pyReplace contents
          "PLATFORM" "steam")
          "from serpent.game_launchers.web_browser_game_launcher import WebBrowser" "")
          "kwargs[\"executable_path\"] = \"EXECUTABLE_PATH\"" "")
          "kwargs[\"url\"] = \"URL\"" "")
          "kwargs[\"browser\"] = WebBrowser.DEFAULT" "" := rfl

/-- The full content transformation of the game file for a well-formed
entity name: concrete flanks around two copies of the name, with the
platform line rewritten to `steam` and the three other-platform lines
deleted. -/
theorem steam_transform (name : String)
    (h1 : name.data.all nameChar = true)
    (h2 : hasMatch "PLATFORM".data name.data = false)
    (h3 : hasMatch "MyGameAPI".data name.data = false) :
    applyPlatformRules "steam"
        (pyReplace (pyReplace templateSerpentGamePy "SerpentGame"
            ("Serpent" ++ name ++ "Game")) "MyGameAPI" (name ++ "API"))
      = ⟨tmplA4.data ++ (name.data
          ++ (tmplM7.data ++ (name.data ++ tmplB2.data)))⟩ := by
  rw [steam_step1 name, steam_step2 name h1 h3, applyPlatformRules_steam,
    steam_step3 name h1 h2, steam_step4 name h1, steam_step5 name h1,
    steam_step6 name h1, steam_step7 name h1]

/-! ### Lines are substrings, and reads over the filesystem model -/

/-- Every nonempty line produced by the splitter occurs as a substring of
the pending accumulator followed by the remaining text. -/
theorem mem_splitLinesAux_hasMatch :
    ∀ (cs acc : List Char) (l : String), l ∈ splitLinesAux cs acc →
    l.data ≠ [] → hasMatch l.data (acc.reverse ++ cs) = true := by
  intro cs
  induction cs with
  | nil =>
      intro acc l hl hne
      simp only [splitLinesAux, List.mem_singleton] at hl
      subst hl
      show hasMatch acc.reverse (acc.reverse ++ []) = true
      exact hasMatch_self_append hne []
  | cons c cs' ih =>
      intro acc l hl hne
      by_cases hc : c = '\n'
      · subst hc
        rw [show splitLinesAux ('\n' :: cs') acc
            = (⟨acc.reverse⟩ : String) :: splitLinesAux cs' [] from by
          simp [splitLinesAux]] at hl
        rcases List.mem_cons.mp hl with h1 | h2
        · subst h1
          show hasMatch acc.reverse (acc.reverse ++ ('\n' :: cs')) = true
          exact hasMatch_self_append hne _
        · have hm := ih [] l h2 hne
          simp only [List.reverse_nil, List.nil_append] at hm
          have h3 : hasMatch l.data ((acc.reverse ++ ['\n']) ++ cs') = true :=
            hasMatch_append_right _ hm
          rwa [List.append_assoc, List.singleton_append] at h3
      · rw [show splitLinesAux (c :: cs') acc = splitLinesAux cs' (c :: acc) from by
          simp [splitLinesAux, hc]] at hl
        have hm := ih (c :: acc) l hl hne
        rwa [List.reverse_cons, List.append_assoc, List.singleton_append] at hm

/-- A nonempty line of a string occurs in it as a substring. -/
theorem mem_linesOf_hasMatch {s l : String} (hl : l ∈ linesOf s)
    (hne : l.data ≠ []) : hasMatch l.data s.data = true := by
  have hm := mem_splitLinesAux_hasMatch s.data [] l hl hne
  simpa using hm

/-- Reading past an erase of a different path. -/
theorem fsFind_erase_ne {q p : Path} (h : q ≠ p) :
    ∀ fs, fsFind (fsErase fs p) q = fsFind fs q := by
  intro fs
  induction fs with
  | nil => rfl
  | cons kv fs' ih =>
      obtain ⟨k, c⟩ := kv
      by_cases hk : p = k
      · subst hk
        simp [fsErase, fsFind, h, ih]
      · by_cases hq : q = k <;> simp [fsErase, fsFind, hk, hq, ih]

/-- Reading a freshly written path. -/
theorem fsFind_write_self (fs : FS) (p : Path) (c : String) :
    fsFind (fsWrite fs p c) p = some c := by
  simp [fsWrite, fsFind]

/-- Reading a different path past a write. -/
theorem fsFind_write_ne (fs : FS) (p : Path) (c : String) {q : Path}
    (h : q ≠ p) : fsFind (fsWrite fs p c) q = fsFind fs q := by
  simp only [fsWrite, fsFind, h, if_false]
  exact fsFind_erase_ne h fs

/-- Paths sharing a directory prefix differ when their tails differ. -/
theorem append_path_ne {d A B : Path} (h : A ≠ B) : d ++ A ≠ d ++ B :=
  fun he => h (List.append_cancel_left he)

/-- Tails of different lengths give different paths. -/
theorem path_ne_of_length {A B : Path} (h : A.length ≠ B.length) : A ≠ B :=
  fun he => h (congrArg List.length he)

set_option maxRecDepth 1000000 in
/-- Claim C3, amended: for every entity name made of letters and digits
that does not embed the placeholder tokens `PLATFORM` or `MyGameAPI`
(adversarial names embedding newlines and literal branch-line fragments
are excluded — see the counterexample), and for every starting filesystem
from which the generation succeeds, the Steam generation yields a game
file with zero residual lines belonging to the executable or web-browser
platform branches (each such literal line was deleted), with the platform
placeholder line rewritten — as a full newline-delimited line — to carry
the literal `steam`, and with no `PLATFORM` text left anywhere. -/
theorem c3_amended_platform_stripping (fs : FS) (name : String)
    (h1 : name.data.all nameChar = true)
    (h2 : hasMatch "PLATFORM".data name.data = false)
    (h3 : hasMatch "MyGameAPI".data name.data = false) :
    ∀ content, generatedGameFile fs name "steam" = some content →
      ((linesOf content).all fun l => !(otherPlatformLines.contains l)) = true
      ∧ hasMatch "\nkwargs[\"platform\"] = \"steam\"\n".data content.data = true
      ∧ hasMatch "PLATFORM".data content.data = false := by
  intro content hc
  simp only [generatedGameFile] at hc
  split at hc
  case h_2 => exact absurd hc (by simp)
  case h_1 fs2 heq =>
  simp only [prepare_game_plugin] at heq
  split at heq
  · exact absurd heq (by simp)
  · rename_i fs1 hcopy
    split at heq
    · exact absurd heq (by simp)
    · rename_i pc hfind1
      split at heq
      · exact absurd heq (by simp)
      · rename_i fs3 hmove
        split at heq
        · exact absurd heq (by simp)
        · rename_i gcont hfind2
          split at heq
          · exact absurd heq (by simp)
          · rename_i acont hfind3
            simp only [Except.ok.injEq] at heq
            subst heq
            simp only [copytree] at hcopy
            split at hcopy
            · exact absurd hcopy (by simp)
            · simp only [Except.ok.injEq] at hcopy
              subst hcopy
              have hsrc_ne : (["plugins", "Serpent" ++ name ++ "GamePlugin"] : Path)
                  ++ ["files", "serpent_game.py"]
                  ≠ ["plugins", "Serpent" ++ name ++ "GamePlugin"] ++ ["plugin.py"] :=
                append_path_ne (path_ne_of_length (by simp))
              simp only [fsMove] at hmove
              rw [fsFind_write_ne _ _ _ hsrc_ne] at hmove
              simp only [gamePluginTemplate, List.map_cons, List.map_nil,
                List.cons_append, List.nil_append, fsFind, hsrc_ne, if_false,
                if_pos] at hmove
              simp at hmove
              subst hmove
              simp only [List.cons_append, List.nil_append] at hfind2 hc
              rw [fsFind_write_self] at hfind2
              simp only [Option.some.injEq] at hfind2
              subst hfind2
              have hga : (["plugins", "Serpent" ++ name ++ "GamePlugin",
                  "files", "serpent_" ++ name ++ "_game.py"] : Path)
                  ≠ ["plugins", "Serpent" ++ name ++ "GamePlugin",
                    "files", "api", "api.py"] := by
                intro he
                have hlen := congrArg List.length he
                simp at hlen
              rw [fsFind_write_ne _ _ _ hga, fsFind_write_self] at hc
              simp only [Option.some.injEq] at hc
              subst hc
              rw [steam_transform name h1 h2 h3]
              have hno1 : hasMatch
                  "from serpent.game_launchers.web_browser_game_launcher import WebBrowser".data
                  (tmplA4.data ++ (name.data ++ (tmplM7.data ++ (name.data ++ tmplB2.data)))) = false :=
                hasMatch_two_hole_false (by decide) (by decide) h1
                  (hasMatch_of_not_allP (by decide) h1) (by decide) (by decide)
                  (by decide) (by decide) (by decide) (by decide)
              have hno2 : hasMatch "kwargs[\"executable_path\"] = \"EXECUTABLE_PATH\"".data
                  (tmplA4.data ++ (name.data ++ (tmplM7.data ++ (name.data ++ tmplB2.data)))) = false :=
                hasMatch_two_hole_false (by decide) (by decide) h1
                  (hasMatch_of_not_allP (by decide) h1) (by decide) (by decide)
                  (by decide) (by decide) (by decide) (by decide)
              have hno3 : hasMatch "kwargs[\"url\"] = \"URL\"".data
                  (tmplA4.data ++ (name.data ++ (tmplM7.data ++ (name.data ++ tmplB2.data)))) = false :=
                hasMatch_two_hole_false (by decide) (by decide) h1
                  (hasMatch_of_not_allP (by decide) h1) (by decide) (by decide)
                  (by decide) (by decide) (by decide) (by decide)
              have hno4 : hasMatch "kwargs[\"browser\"] = WebBrowser.DEFAULT".data
                  (tmplA4.data ++ (name.data ++ (tmplM7.data ++ (name.data ++ tmplB2.data)))) = false :=
                hasMatch_two_hole_false (by decide) (by decide) h1
                  (hasMatch_of_not_allP (by decide) h1) (by decide) (by decide)
                  (by decide) (by decide) (by decide) (by decide)
              refine ⟨?_, ?_, ?_⟩
              · rw [List.all_eq_true]
                intro l hl
                rw [Bool.not_eq_true']
                cases hcon : otherPlatformLines.contains l with
                | false => rfl
                | true =>
                    exfalso
                    have hmem : l ∈ otherPlatformLines := List.mem_of_elem_eq_true hcon
                    have hsub := mem_linesOf_hasMatch hl
                    simp only [otherPlatformLines, List.mem_cons,
                      List.not_mem_nil, or_false] at hmem
                    rcases hmem with rfl | rfl | rfl | rfl
                    · have h' : hasMatch
                          "from serpent.game_launchers.web_browser_game_launcher import WebBrowser".data
                          (tmplA4.data ++ (name.data ++ (tmplM7.data ++ (name.data ++ tmplB2.data)))) = true := hsub (by decide)
                      exact Bool.noConfusion (hno1.symm.trans h')
                    · have h' : hasMatch "kwargs[\"executable_path\"] = \"EXECUTABLE_PATH\"".data
                          (tmplA4.data ++ (name.data ++ (tmplM7.data ++ (name.data ++ tmplB2.data)))) = true := hsub (by decide)
                      exact Bool.noConfusion (hno2.symm.trans h')
                    · have h' : hasMatch "kwargs[\"url\"] = \"URL\"".data
                          (tmplA4.data ++ (name.data ++ (tmplM7.data ++ (name.data ++ tmplB2.data)))) = true := hsub (by decide)
                      exact Bool.noConfusion (hno3.symm.trans h')
                    · have h' : hasMatch "kwargs[\"browser\"] = WebBrowser.DEFAULT".data
                          (tmplA4.data ++ (name.data ++ (tmplM7.data ++ (name.data ++ tmplB2.data)))) = true := hsub (by decide)
                      exact Bool.noConfusion (hno4.symm.trans h')
              · show hasMatch "\nkwargs[\"platform\"] = \"steam\"\n".data
                  (tmplA4.data ++ (name.data ++ (tmplM7.data ++ (name.data ++ tmplB2.data)))) = true
                exact hasMatch_append_right _ (hasMatch_append_right _
                  (hasMatch_append_left _ (by decide)))
              · show hasMatch "PLATFORM".data (tmplA4.data ++ (name.data ++ (tmplM7.data ++ (name.data ++ tmplB2.data)))) = false
                exact hasMatch_two_hole_false (by decide) (by decide) h1 h2
                  (by decide) (by decide) (by decide) (by decide) (by decide)
                  (by decide)

set_option maxRecDepth 1000000 in
/-- Claim C3, counterexample: the claim quantifies over every generated
steam plugin, but generation from the adversarial entity name `evilName`
(accepted by the generator, which validates names only for nonemptiness)
succeeds and leaves the web-browser branch line `kwargs["url"] = "URL"`
as a full residual line of the generated game file: deleting the browser
line out of the name reconstitutes the url line after the url-deletion
pass already ran. -/
theorem c3_counterexample :
    residualUrlLine (generatedGameFile [] evilName "steam") = true := by decide

set_option maxRecDepth 1000000 in
/-- Witness for the amended C3 at the entity name `Foo` on an empty
filesystem. -/
theorem c3_witness :
    ((linesOf fooSteamGameFile).all fun l => !(otherPlatformLines.contains l)) = true
    ∧ hasMatch "\nkwargs[\"platform\"] = \"steam\"\n".data fooSteamGameFile.data = true
    ∧ hasMatch "PLATFORM".data fooSteamGameFile.data = false :=
  c3_amended_platform_stripping [] "Foo" (by decide) (by decide) (by decide)
    fooSteamGameFile (by decide)

/-- Claim C4, counterexample: `record` with `frame_count="abc"` does not
fail with a descriptive mode-argument error naming the field — it
propagates the raw `ValueError` of `int("abc")` (which carries only the
unparseable string), and only after the game was already resolved,
constructed and dry-run launched. -/
theorem c4_counterexample :
    record ["SerpentFooGame"] "Foo" "RandomAgent" (.vstr "abc") (.vint 4)
      = ([Event.discoverGame, Event.constructGame "SerpentFooGame",
          Event.gameLaunch "SerpentFooGame" true],
         .error (.valueErrorInt "abc")) := by
  decide

/-- Claim C4, amended: for every record invocation with an unparseable
`frame_count` (whatever `frame_spacing` holds), and likewise for every
record invocation whose `frame_count` converts but whose `frame_spacing`
is unparseable, the call fails with the raw conversion `ValueError`
carrying the offending string (not a descriptive mode-argument error
naming the field), after the game has been resolved and dry-run
launched. -/
theorem c4_amended_raw_value_error (games : List String) (g a s : String)
    (fc fsp : PyVal) (n : Int) (hc : ("Serpent" ++ g ++ "Game") ∈ games)
    (hs : pyParseInt s = none) (hfc : pyInt fc = .ok n) :
    record games g a (.vstr s) fsp
      = ([Event.discoverGame, Event.constructGame ("Serpent" ++ g ++ "Game"),
          Event.gameLaunch ("Serpent" ++ g ++ "Game") true],
         .error (.valueErrorInt s))
    ∧ record games g a fc (.vstr s)
      = ([Event.discoverGame, Event.constructGame ("Serpent" ++ g ++ "Game"),
          Event.gameLaunch ("Serpent" ++ g ++ "Game") true],
         .error (.valueErrorInt s)) := by
  have hsv : pyInt (PyVal.vstr s) = .error (.valueErrorInt s) := by
    simp [pyInt, hs]
  constructor <;> simp [record, initialize_game, hc, hsv, hfc]

/-- Witness for the amended C4 at a concrete installed game and the
unparseable string `abc`, in the frame_count slot and in the
frame_spacing slot. -/
theorem c4_amended_witness :
    record ["SerpentBobGame"] "Bob" "Agent" (.vstr "abc") (.vint 4)
      = ([Event.discoverGame, Event.constructGame ("Serpent" ++ "Bob" ++ "Game"),
          Event.gameLaunch ("Serpent" ++ "Bob" ++ "Game") true],
         .error (.valueErrorInt "abc"))
    ∧ record ["SerpentBobGame"] "Bob" "Agent" (.vint 4) (.vstr "abc")
      = ([Event.discoverGame, Event.constructGame ("Serpent" ++ "Bob" ++ "Game"),
          Event.gameLaunch ("Serpent" ++ "Bob" ++ "Game") true],
         .error (.valueErrorInt "abc")) :=
  c4_amended_raw_value_error ["SerpentBobGame"] "Bob" "Agent" "abc"
    (.vint 4) (.vint 4) 4 (by decide) (by decide) (by decide)

/-- A list is a Boolean prefix of itself followed by anything. -/
theorem isPrefixOf_append_self (l r : List String) : l.isPrefixOf (l ++ r) = true := by
  induction l with
  | nil => simp [List.isPrefixOf]
  | cons a t ih => simp [List.isPrefixOf, ih]

/-- Claim C5: generation derives its destination deterministically as
`plugins/Serpent<entity_name>GamePlugin` (the path carried by the error
below), and generating a second time with the same entity name fails with
the destination-already-exists conflict.  The failing call returns only
the error: the conflict is raised by `copytree` before anything is
created, so the first generation's output is left untouched. -/
theorem c5_regenerate_conflict (fs : FS) (game_name game_platform : String)
    (fs2 : FS)
    (h : prepare_game_plugin fs game_name game_platform = .ok fs2) :
    prepare_game_plugin fs2 game_name game_platform
      = .error (.fileExists ["plugins", "Serpent" ++ game_name ++ "GamePlugin"]) := by
  simp only [prepare_game_plugin] at h
  split at h
  · exact absurd h (by simp)
  · split at h
    · exact absurd h (by simp)
    · split at h
      · exact absurd h (by simp)
      · split at h
        · exact absurd h (by simp)
        · split at h
          · exact absurd h (by simp)
          · simp only [Except.ok.injEq] at h
            subst h
            simp [prepare_game_plugin, copytree, dirExistsB, fsWrite,
              isPrefixOf_append_self]

set_option maxRecDepth 100000 in
/-- Witness for C5: generating the `Bar` executable game plugin twice from
an empty filesystem; the second call reports the conflict. -/
theorem c5_witness :
    prepare_game_plugin (fsOfOk (prepare_game_plugin [] "Bar" "executable"))
        "Bar" "executable"
      = .error (.fileExists ["plugins", "Serpent" ++ "Bar" ++ "GamePlugin"]) :=
  c5_regenerate_conflict [] "Bar" "executable"
    (fsOfOk (prepare_game_plugin [] "Bar" "executable")) (by decide)

/-- Claim C6: when the derived class name `Serpent<game_name>Game` is
absent from the plugin registry, resolution fails with the not-found error
carrying the attempted game name, and the trace shows that no game
instance was constructed and no launch happened. -/
theorem c6_plugin_not_found (games : List String) (g : String)
    (h : ("Serpent" ++ g ++ "Game") ∉ games) :
    initialize_game games g = ([Event.discoverGame], .error (.gameNotFound g)) := by
  simp [initialize_game, h]

/-- Witness for C6: resolving `Ghost` against an empty registry. -/
theorem c6_witness :
    initialize_game [] "Ghost" = ([Event.discoverGame], .error (.gameNotFound "Ghost")) :=
  c6_plugin_not_found [] "Ghost" (by decide)

/-- Claim C7, counterexample: the token `-h` is not in the valid-command
table, yet dispatching it does not fail with an unknown-command error — it
dispatches to the help display. -/
theorem c7_counterexample :
    valid_commands.contains "-h" = false
    ∧ execute ⟨[], []⟩ ["serpent", "-h"] = ([Event.help], .ok ()) := by
  decide

/-- Claim C7, amended: every command token outside the valid-command
table, other than the help flags `-h` and `--help` (which dispatch to the
help display), fails immediately with the unknown-command error naming the
offending token, with no handler invoked; invoking the program with zero
arguments dispatches to the help display instead of failing. -/
theorem c7_amended_unknown_command (w : World) (prog tok : String)
    (args : List String) (h1 : tok ∉ valid_commands) (h2 : tok ≠ "-h")
    (h3 : tok ≠ "--help") :
    execute w (prog :: tok :: args) = ([], .error (.invalidCommand tok))
    ∧ execute w [prog] = ([Event.help], .ok ()) := by
  constructor
  · simp [execute, h1, h2, h3]
  · simp [execute]

/-- Witness for the amended C7 at the unknown token `frobnicate`. -/
theorem c7_witness :
    execute ⟨[], []⟩ ["serpent", "frobnicate"]
        = ([], .error (.invalidCommand "frobnicate"))
    ∧ execute ⟨[], []⟩ ["serpent"] = ([Event.help], .ok ()) :=
  c7_amended_unknown_command ⟨[], []⟩ "serpent" "frobnicate" []
    (by decide) (by decide) (by decide)

/-- Claim C8, counterexample: the context-training hand-off reaches the
collaborator's train entry point with no interrupt-signal handler
installation anywhere in its trace — refuting the claim that both training
paths install one before handing off. -/
theorem c8_counterexample :
    train_context (.vint 3) (.vbool true) (.vbool false)
      = ([Event.trainCall "ContextClassifier"], .ok ())
    ∧ sigintBeforeTrain [Event.trainCall "ContextClassifier"] [] = false := by
  decide

/-- Claim C8, amended: only the object-training hand-off installs the
SIGINT handler forwarding to the collaborator's own interrupt callback
before invoking train; the context-training hand-off installs no signal
handler at all. -/
theorem c8_amended_only_object_training (name algorithm : String)
    (classes : List String) (epochs validate autosave : PyVal) :
    train_object name algorithm classes
      = ([Event.constructRecognizer name algorithm classes,
          Event.signalInstall name, Event.trainCall name], .ok ())
    ∧ sigintBeforeTrain (train_object name algorithm classes).1 [] = true
    ∧ noSignalInstall (train_context epochs validate autosave).1 = true := by
  refine ⟨rfl, ?_, ?_⟩
  · simp [train_object, sigintBeforeTrain]
  · by_cases hv : validate ∈ trueFalseVocab <;>
      by_cases ha : autosave ∈ trueFalseVocab <;>
      rcases he : pyInt epochs with e | n <;>
      simp [train_context, hv, ha, he, noSignalInstall]

/-- Claim C9: through the CLI, `record` with omitted frame arguments makes
the canonical play call with the defaults `frame_count=4, frame_spacing=4`,
and with the decimal strings `"10"` and `"2"` it makes it with the parsed
integers 10 and 2. -/
theorem c9_record_defaults (w : World) (g a : String)
    (hc : ("Serpent" ++ g ++ "Game") ∈ w.games) :
    execute w ["serpent", "record", g, a]
      = ([Event.discoverGame, Event.constructGame ("Serpent" ++ g ++ "Game"),
          Event.gameLaunch ("Serpent" ++ g ++ "Game") true,
          Event.gamePlay ("Serpent" ++ g ++ "Game")
            ⟨some a, some "RECORD", some 4, some 4, none, none, none, none⟩],
         .ok ())
    ∧ execute w ["serpent", "record", g, a, "10", "2"]
      = ([Event.discoverGame, Event.constructGame ("Serpent" ++ g ++ "Game"),
          Event.gameLaunch ("Serpent" ++ g ++ "Game") true,
          Event.gamePlay ("Serpent" ++ g ++ "Game")
            ⟨some a, some "RECORD", some 10, some 2, none, none, none, none⟩],
         .ok ()) := by
  have h10 : pyParseInt "10" = some 10 := by decide
  have h2 : pyParseInt "2" = some 2 := by decide
  constructor <;>
    simp [execute, valid_commands, runCommand, record, initialize_game,
      pyInt, hc, h10, h2]

/-- Witness for C9 with the `Foo` game installed. -/
theorem c9_witness :
    execute ⟨["SerpentFooGame"], []⟩ ["serpent", "record", "Foo", "Agent"]
      = ([Event.discoverGame, Event.constructGame ("Serpent" ++ "Foo" ++ "Game"),
          Event.gameLaunch ("Serpent" ++ "Foo" ++ "Game") true,
          Event.gamePlay ("Serpent" ++ "Foo" ++ "Game")
            ⟨some "Agent", some "RECORD", some 4, some 4, none, none, none, none⟩],
         .ok ())
    ∧ execute ⟨["SerpentFooGame"], []⟩ ["serpent", "record", "Foo", "Agent", "10", "2"]
      = ([Event.discoverGame, Event.constructGame ("Serpent" ++ "Foo" ++ "Game"),
          Event.gameLaunch ("Serpent" ++ "Foo" ++ "Game") true,
          Event.gamePlay ("Serpent" ++ "Foo" ++ "Game")
            ⟨some "Agent", some "RECORD", some 10, some 2, none, none, none, none⟩],
         .ok ()) :=
  c9_record_defaults ⟨["SerpentFooGame"], []⟩ "Foo" "Agent" (by decide)

/-- Claim C10: a capture invocation with a capture type outside
frame/context/region fails only after the game plugin has been resolved,
constructed and dry-run launched — the trace of the failing call shows the
launch side effects already happened — while the canonical play call is
never made. -/
theorem c10_capture_validates_after_launch (games : List String)
    (t g : String) (i : PyVal) (e1 e2 : Option String)
    (hm : t ∉ ["frame", "context", "region"])
    (hc : ("Serpent" ++ g ++ "Game") ∈ games) :
    capture games t g i e1 e2
      = ([Event.discoverGame, Event.constructGame ("Serpent" ++ g ++ "Game"),
          Event.gameLaunch ("Serpent" ++ g ++ "Game") true],
         .error .invalidCaptureCommand) := by
  simp [capture, initialize_game, hc, hm]

/-- Witness for C10 at the invalid capture type `bogus`. -/
theorem c10_witness :
    capture ["SerpentFooGame"] "bogus" "Foo" (.vint 1) none none
      = ([Event.discoverGame, Event.constructGame ("Serpent" ++ "Foo" ++ "Game"),
          Event.gameLaunch ("Serpent" ++ "Foo" ++ "Game") true],
         .error .invalidCaptureCommand) :=
  c10_capture_validates_after_launch ["SerpentFooGame"] "bogus" "Foo" (.vint 1)
    none none (by decide) (by decide)

end Serpent
